import Mathlib

/-! SFML physics simulation: embedding of `src/sfml/main.cpp`.

The physics core of the program (`SpatialPartition`, `handleBallCollision`,
`updateBalls`) is translated into pure Lean functions.

Modelling conventions.

* `float` values are elements of an ordered field `F`: arithmetic is exact,
  the literals `0.8f` and `-0.8f` are `4/5` and `-4/5`.  Rounding, NaN and
  infinities are outside the model.  Every definition is computable for a
  field with computable operations; concrete runs take `F = ℚ`.
* `std::sqrt` is a parameter `sqrt : F → F` of every definition that calls
  it.  Theorems that hold for every square-root function keep it as a
  parameter.  Theorems that need the exact square root of an arbitrary
  distance take `F = ℝ` and `Real.sqrt`, so they cover every pair of
  positions, also those at an irrational distance.
* A `std::shared_ptr<Ball>` is an index into the ball collection
  (`std::vector<std::shared_ptr<Ball>>` is a `List Ball`, the pointer is the
  position in the list).  The collection therefore never holds the same
  pointer twice, as in `main`, where every ball is created by `make_shared`
  and pushed once.
* `int` and `unsigned` are `ℤ` and `ℕ` (no overflow: out-of-range casts are
  undefined in C++ and outside the model).
* The `std::unordered_map` of the partition is an association list; the order
  of its entries carries no meaning.
-/

namespace PhysicsSim

variable {F : Type} [LinearOrderedField F]

/-! ## Constants (lines 10-15) -/

def GRAVITY : F := 560
def BALL_RADIUS : F := 10
def BALL_DENSITY : F := 1
def STORM_FORCE : F := 2000
def BALL_GENERATION_DELAY : F := 1 / 10
def GRID_SIZE : F := 50

/-! ## Vectors and balls -/

/-- The type `sf::Vector2f`. -/
structure Vec2 (F : Type) where
  x : F
  y : F
deriving DecidableEq, Repr

namespace Vec2

/-- Component-wise sum, `operator+` of `sf::Vector2`. -/
def add (a b : Vec2 F) : Vec2 F := ⟨a.x + b.x, a.y + b.y⟩

/-- Component-wise difference, `operator-` of `sf::Vector2`. -/
def sub (a b : Vec2 F) : Vec2 F := ⟨a.x - b.x, a.y - b.y⟩

/-- Vector times scalar, `operator*(Vector2, T)` (and `operator*(T, Vector2)`,
which SFML computes as `right.x * left`). -/
def scale (a : Vec2 F) (f : F) : Vec2 F := ⟨a.x * f, a.y * f⟩

/-- Vector divided by scalar, `operator/(Vector2, T)`. -/
def divide (a : Vec2 F) (f : F) : Vec2 F := ⟨a.x / f, a.y / f⟩

end Vec2

/-- The struct `Ball` (lines 17-20): the position of its `shape` and its
velocity.  Radius and colour of the shape play no part in the physics. -/
structure Ball (F : Type) where
  position : Vec2 F
  velocity : Vec2 F
deriving DecidableEq, Repr

/-! ## SpatialPartition (lines 33-60) -/

/-- The conversion `static_cast<int>(float)`: truncation toward zero. -/
def castInt [FloorRing F] (q : F) : ℤ := if 0 ≤ q then ⌊q⌋ else ⌈q⌉

/-- The map type of the field `grid`: cell key to bucket of ball pointers. -/
abbrev Grid := List ((ℤ × ℤ) × List ℕ)

/-- The statement `grid[key].push_back(ball)`: `operator[]` creates an empty
bucket for an absent key, then the pointer is appended to the bucket. -/
def Grid.pushBack : Grid → (ℤ × ℤ) → ℕ → Grid
  | [], key, ball => [(key, [ball])]
  | (k, bucket) :: rest, key, ball =>
    if k = key then (k, bucket ++ [ball]) :: rest
    else (k, bucket) :: Grid.pushBack rest key ball

/-- The call `grid.find(key)`: the bucket stored for the key, if any. -/
def Grid.find : Grid → (ℤ × ℤ) → Option (List ℕ)
  | [], _ => none
  | (k, bucket) :: rest, key => if k = key then some bucket else Grid.find rest key

/-- The class `SpatialPartition`. -/
structure SpatialPartition (F : Type) where
  cellSize : F
  grid : Grid
deriving DecidableEq, Repr

namespace SpatialPartition

/-- The cell key computed by `addBall` (lines 38-39). -/
def cellKey [FloorRing F] (self : SpatialPartition F) (ball : Ball F) : ℤ × ℤ :=
  (castInt (ball.position.x / self.cellSize), castInt (ball.position.y / self.cellSize))

/-- `SpatialPartition::addBall` (lines 37-41).  `ptr` is the pointer, `ball`
the value it points to at the time of the call. -/
def addBall [FloorRing F] (self : SpatialPartition F) (ptr : ℕ) (ball : Ball F) : SpatialPartition F :=
  { self with grid := self.grid.pushBack (self.cellKey ball) ptr }

/-- `SpatialPartition::getBallsInCell` (lines 43-51). -/
def getBallsInCell (self : SpatialPartition F) (x y : ℤ) : List ℕ :=
  match self.grid.find (x, y) with
  | some bucket => bucket
  | none => []

/-- `SpatialPartition::clear` (lines 53-55). -/
def clear (self : SpatialPartition F) : SpatialPartition F :=
  { self with grid := [] }

/-- All bucket contents, bucket after bucket. -/
def allBalls (self : SpatialPartition F) : List ℕ :=
  (self.grid.map Prod.snd).flatten

end SpatialPartition

/-! ## handleBallCollision (lines 62-78) -/

/-- The local `delta` of `handleBallCollision` (line 63). -/
def collisionDelta (ball1 ball2 : Ball F) : Vec2 F :=
  ball1.position.sub ball2.position

/-- The local `distance` of `handleBallCollision` (line 64). -/
def collisionDistance (sqrt : F → F) (ball1 ball2 : Ball F) : F :=
  sqrt ((collisionDelta ball1 ball2).x * (collisionDelta ball1 ball2).x
    + (collisionDelta ball1 ball2).y * (collisionDelta ball1 ball2).y)

/-- The local `normal` of `handleBallCollision` (line 68). -/
def collisionNormal (sqrt : F → F) (ball1 ball2 : Ball F) : Vec2 F :=
  (collisionDelta ball1 ball2).divide (collisionDistance sqrt ball1 ball2)

/-- The local `relativeVelocity` of `handleBallCollision` (line 69). -/
def relativeVelocity (sqrt : F → F) (ball1 ball2 : Ball F) : F :=
  (ball1.velocity.sub ball2.velocity).x * (collisionNormal sqrt ball1 ball2).x
    + (ball1.velocity.sub ball2.velocity).y * (collisionNormal sqrt ball1 ball2).y

/-- `handleBallCollision` (lines 62-78): the two balls after the call. -/
def handleBallCollision (sqrt : F → F) (ball1 ball2 : Ball F) : Ball F × Ball F :=
  let distance := collisionDistance sqrt ball1 ball2
  let combinedRadius := 2 * BALL_RADIUS
  if distance < combinedRadius then
    let normal := collisionNormal sqrt ball1 ball2
    let relVel := relativeVelocity sqrt ball1 ball2
    if relVel < 0 then
      let coefficientOfRestitution : F := 4 / 5
      let impulseMagnitude := (1 + coefficientOfRestitution) * relVel / (2 / BALL_DENSITY)
      ({ ball1 with velocity := ball1.velocity.sub (normal.scale (impulseMagnitude / BALL_DENSITY)) },
       { ball2 with velocity := ball2.velocity.add (normal.scale (impulseMagnitude / BALL_DENSITY)) })
    else (ball1, ball2)
  else (ball1, ball2)

/-- The divisors of the divisions that `handleBallCollision` executes, in
execution order: `delta / distance` (line 68, one division per component)
inside the overlap branch, then `2 / BALL_DENSITY`, the division by that
quotient (line 73) and the two `impulseMagnitude / BALL_DENSITY` (lines
74-75) inside the approach branch. -/
def handleBallCollisionDivisors (sqrt : F → F) (ball1 ball2 : Ball F) : List F :=
  let distance := collisionDistance sqrt ball1 ball2
  if distance < 2 * BALL_RADIUS then
    [distance, distance] ++
      (if relativeVelocity sqrt ball1 ball2 < 0 then
        [BALL_DENSITY, 2 / BALL_DENSITY, BALL_DENSITY, BALL_DENSITY]
      else [])
  else []

/-! ## updateBalls (lines 80-126) -/

/-- Lines 87-102: the four wall tests in source order.  Takes the tentative
position and the velocity after gravity, returns the position handed to
`setPosition` and the velocity left in the ball. -/
def wallHandling (windowSize : ℕ × ℕ) (position velocity : Vec2 F) : Vec2 F × Vec2 F :=
  let hitTop : Bool := position.y - BALL_RADIUS < 0
  let py1 := if hitTop then BALL_RADIUS else position.y
  let vy1 := if hitTop then velocity.y * (-4 / 5) else velocity.y
  let hitBottom : Bool := py1 + BALL_RADIUS > (windowSize.2 : F)
  let py2 := if hitBottom then (windowSize.2 : F) - BALL_RADIUS else py1
  let vy2 := if hitBottom then vy1 * (-4 / 5) else vy1
  let hitLeft : Bool := position.x - BALL_RADIUS < 0
  let px1 := if hitLeft then BALL_RADIUS else position.x
  let vx1 := if hitLeft then velocity.x * (-4 / 5) else velocity.x
  let hitRight : Bool := px1 + BALL_RADIUS > (windowSize.1 : F)
  let px2 := if hitRight then (windowSize.1 : F) - BALL_RADIUS else px1
  let vx2 := if hitRight then vx1 * (-4 / 5) else vx1
  (⟨px2, py2⟩, ⟨vx2, vy2⟩)

/-- Lines 83-104: gravity, movement, wall handling and `setPosition` for one
ball. -/
def moveBall (deltaTime : F) (windowSize : ℕ × ℕ) (ball : Ball F) : Ball F :=
  let velocity : Vec2 F := ⟨ball.velocity.x, ball.velocity.y + GRAVITY * deltaTime⟩
  let movement := velocity.scale deltaTime
  let position := ball.position.add movement
  let r := wallHandling windowSize position velocity
  { position := r.1, velocity := r.2 }

/-- Lines 107-109, one iteration of the inner loop: `ball` is the pointer at
index `i`, `otherBall` the pointer at index `j`; both balls are written
back. -/
def collideWith (sqrt : F → F) (i : ℕ) (balls : List (Ball F)) (j : ℕ) : List (Ball F) :=
  if i = j then balls
  else
    match balls[i]?, balls[j]? with
    | some ball, some otherBall =>
      let r := handleBallCollision sqrt ball otherBall
      (balls.set i r.1).set j r.2
    | _, _ => balls

/-- Lines 106-110: the inner loop over all balls of the collection. -/
def collideAll (sqrt : F → F) (i : ℕ) (balls : List (Ball F)) : List (Ball F) :=
  (List.range balls.length).foldl (collideWith sqrt i) balls

/-- The local `direction` before normalisation (lines 113-115). -/
def stormDirection (mousePosition : ℤ × ℤ) (ball : Ball F) : Vec2 F :=
  ball.position.sub ⟨(mousePosition.1 : F), (mousePosition.2 : F)⟩

/-- The local `distance` of the storm block (line 116). -/
def stormDistance (sqrt : F → F) (mousePosition : ℤ × ℤ) (ball : Ball F) : F :=
  sqrt ((stormDirection mousePosition ball).x * (stormDirection mousePosition ball).x
    + (stormDirection mousePosition ball).y * (stormDirection mousePosition ball).y)

/-- Lines 112-122: the storm block for one ball. -/
def applyStorm (sqrt : F → F) (deltaTime : F) (stormActive : Bool) (mousePosition : ℤ × ℤ)
    (ball : Ball F) : Ball F :=
  if stormActive then
    let direction := stormDirection mousePosition ball
    let distance := stormDistance sqrt mousePosition ball
    if distance > 0 then
      let direction := direction.divide distance
      { ball with velocity := ball.velocity.add ((direction.scale STORM_FORCE).scale deltaTime) }
    else ball
  else ball

/-- Lines 83-124: the body of the outer loop for the ball at index `i`. -/
def updateBall [FloorRing F] (sqrt : F → F) (deltaTime : F) (stormActive : Bool) (mousePosition : ℤ × ℤ)
    (windowSize : ℕ × ℕ) (st : List (Ball F) × SpatialPartition F) (i : ℕ) :
    List (Ball F) × SpatialPartition F :=
  match st.1[i]? with
  | none => st
  | some ball =>
    let balls1 := st.1.set i (moveBall deltaTime windowSize ball)
    let balls2 := collideAll sqrt i balls1
    match balls2[i]? with
    | none => (balls2, st.2)
    | some ball2 =>
      let ball3 := applyStorm sqrt deltaTime stormActive mousePosition ball2
      (balls2.set i ball3, st.2.addBall i ball3)

/-- `updateBalls` (lines 80-126): the collection and the partition after the
call. -/
def updateBalls [FloorRing F] (sqrt : F → F) (balls : List (Ball F)) (deltaTime : F) (stormActive : Bool)
    (mousePosition : ℤ × ℤ) (windowSize : ℕ × ℕ) (partition : SpatialPartition F) :
    List (Ball F) × SpatialPartition F :=
  (List.range balls.length).foldl
    (updateBall sqrt deltaTime stormActive mousePosition windowSize) (balls, partition.clear)

/-! ## Reference steps for the order of the phases

The step as the specification words it, phase by phase, and the same phases
in the order in which the code runs them. -/

/-- Applies one phase to the body at index `i`, leaving the others alone. -/
def onBody (phase : Ball F → Ball F) (i : ℕ) (balls : List (Ball F)) : List (Ball F) :=
  match balls[i]? with
  | some ball => balls.set i (phase ball)
  | none => balls

/-- Inserts the body at index `i` into the partition. -/
def insertBody [FloorRing F] (i : ℕ) (st : List (Ball F) × SpatialPartition F) : List (Ball F) × SpatialPartition F :=
  match st.1[i]? with
  | some ball => (st.1, st.2.addBall i ball)
  | none => st

/-- The integrator of the specification: gravity, movement, wall handling,
then storm force. -/
def specIntegrator (sqrt : F → F) (deltaTime : F) (stormActive : Bool) (mousePosition : ℤ × ℤ)
    (windowSize : ℕ × ℕ) (ball : Ball F) : Ball F :=
  applyStorm sqrt deltaTime stormActive mousePosition (moveBall deltaTime windowSize ball)

/-- The reference step of the specification: clear the partition, then for
each body in collection order run the whole integrator, resolve its
collisions against every other body, insert it into the partition. -/
def referenceStep [FloorRing F] (sqrt : F → F) (balls : List (Ball F)) (deltaTime : F) (stormActive : Bool)
    (mousePosition : ℤ × ℤ) (windowSize : ℕ × ℕ) (partition : SpatialPartition F) :
    List (Ball F) × SpatialPartition F :=
  (List.range balls.length).foldl
    (fun st i =>
      insertBody i
        (collideAll sqrt i
          (onBody (specIntegrator sqrt deltaTime stormActive mousePosition windowSize) i st.1),
         st.2))
    (balls, partition.clear)

/-- The reference step with the collisions moved before the storm force:
for each body in collection order gravity, movement and wall handling, then
its collisions against every other body, then the storm force, then the
insertion into the partition. -/
def referenceStepCollideFirst [FloorRing F] (sqrt : F → F) (balls : List (Ball F)) (deltaTime : F)
    (stormActive : Bool) (mousePosition : ℤ × ℤ) (windowSize : ℕ × ℕ)
    (partition : SpatialPartition F) : List (Ball F) × SpatialPartition F :=
  (List.range balls.length).foldl
    (fun st i =>
      insertBody i
        (onBody (applyStorm sqrt deltaTime stormActive mousePosition) i
          (collideAll sqrt i (onBody (moveBall deltaTime windowSize) i st.1)),
         st.2))
    (balls, partition.clear)

/-! ## Example bodies -/

/-- A ball at (100, 100) moving with velocity (3, 4). -/
def headOnLeft : Ball ℚ := ⟨⟨100, 100⟩, ⟨3, 4⟩⟩

/-- A ball at (106, 108), at distance 10 from `headOnLeft`, moving with the
opposite velocity (-3, -4). -/
def headOnRight : Ball ℚ := ⟨⟨106, 108⟩, ⟨-3, -4⟩⟩

/-- A ball at (100, 100) moving right with speed 50. -/
def touchingLeft : Ball ℚ := ⟨⟨100, 100⟩, ⟨50, 0⟩⟩

/-- A ball at (120, 100), at distance 20 from `touchingLeft`, at rest. -/
def touchingRight : Ball ℚ := ⟨⟨120, 100⟩, ⟨0, 0⟩⟩

/-! ## Wall bounds -/

/-- The bounds that wall handling establishes for a position: the upper
bounds always, each lower bound when the extent holds a ball. -/
def InWalls (windowSize : ℕ × ℕ) (q : Vec2 F) : Prop :=
  q.x ≤ (windowSize.1 : F) - BALL_RADIUS ∧ q.y ≤ (windowSize.2 : F) - BALL_RADIUS ∧
    (20 ≤ windowSize.1 → BALL_RADIUS ≤ q.x) ∧ (20 ≤ windowSize.2 → BALL_RADIUS ≤ q.y)

instance (windowSize : ℕ × ℕ) (q : Vec2 F) : Decidable (InWalls windowSize q) := by
  unfold InWalls
  infer_instance


/-! ## Traces, transitions and step conditions -/

/-- The divisors of the divisions that the storm block executes for one
ball: `direction /= distance` (line 119, one division per component), inside
the guards `stormActive` (line 112) and `distance > 0` (line 118). -/
def applyStormDivisors (sqrt : F → F) (stormActive : Bool) (mousePosition : ℤ × ℤ)
    (ball : Ball F) : List F :=
  if stormActive then
    let distance := stormDistance sqrt mousePosition ball
    if distance > 0 then [distance, distance] else []
  else []

/-- A call of `getBallsInCell` as a transition: the sequence returned and
the partition after the call.  The method is declared `const` and reads the
map with `find`, which inserts nothing. -/
def SpatialPartition.getBallsInCellCall (self : SpatialPartition F) (x y : ℤ) :
    List ℕ × SpatialPartition F :=
  (self.getBallsInCell x y, self)

/-- The cell key of the specification: the floor of each coordinate divided
by the cell size. -/
def floorKey [FloorRing F] (cellSize : F) (position : Vec2 F) : ℤ × ℤ :=
  (⌊position.x / cellSize⌋, ⌊position.y / cellSize⌋)

/-- The pointer `ptr` is in the bucket stored for `key`. -/
def Grid.Stored (g : Grid) (key : ℤ × ℤ) (ptr : ℕ) : Prop :=
  ∃ bucket, g.find key = some bucket ∧ ptr ∈ bucket

/-- The local `position` of line 85: the position the ball would take
before the wall tests. -/
def tentativePosition (deltaTime : F) (ball : Ball F) : Vec2 F :=
  ball.position.add
    ((⟨ball.velocity.x, ball.velocity.y + GRAVITY * deltaTime⟩ : Vec2 F).scale deltaTime)

/-- The ball is airborne in the step: none of the four wall tests of lines
87-99 fires on its tentative position. -/
def Airborne (deltaTime : F) (windowSize : ℕ × ℕ) (ball : Ball F) : Prop :=
  ¬ ((tentativePosition deltaTime ball).y - BALL_RADIUS < 0) ∧
    ¬ ((tentativePosition deltaTime ball).y + BALL_RADIUS > (windowSize.2 : F)) ∧
    ¬ ((tentativePosition deltaTime ball).x - BALL_RADIUS < 0) ∧
    ¬ ((tentativePosition deltaTime ball).x + BALL_RADIUS > (windowSize.1 : F))

instance (deltaTime : F) (windowSize : ℕ × ℕ) (ball : Ball F) :
    Decidable (Airborne deltaTime windowSize ball) := by
  unfold Airborne
  infer_instance

/-! ## Invariants and runs -/

/-- The body at index `j`, if there is one, is within the walls and stored
in the bucket of the floor key of its position. -/
def BucketMatches [FloorRing F] (W : ℕ × ℕ) (st : List (Ball F) × SpatialPartition F) (j : ℕ) : Prop :=
  ∀ b, st.1[j]? = some b →
    InWalls W b.position ∧ st.2.grid.Stored (floorKey GRID_SIZE b.position) j

/-- The collection at the start of the turn of the body at index `k`, in a
step with the storm inactive: the first `k` iterations of the outer loop
have run. -/
def turnStart [FloorRing F] (sqrt : F → F) (deltaTime : F) (mousePosition : ℤ × ℤ)
    (windowSize : ℕ × ℕ) (balls : List (Ball F)) (partition : SpatialPartition F) (k : ℕ) :
    List (Ball F) :=
  ((List.range k).foldl (updateBall sqrt deltaTime false mousePosition windowSize)
    (balls, partition.clear)).1

/-- The collection when the inner loop of the body at index `k`, started on
`balls`, reaches the partner at index `j`: the tests against the partners
before `j` have run. -/
def collisionLoopState (sqrt : F → F) (k : ℕ) (balls : List (Ball F)) (j : ℕ) : List (Ball F) :=
  (List.range j).foldl (collideWith sqrt k) balls

/-- The body at index `i` receives no collision impulse in the step: every
call of `handleBallCollision` of the step, made in the turn of a body `k` on
a partner `j` in the state the loops have reached by then, leaves the body
at index `i` as it is.  Calls on pairs without the body `i`, and calls that
find the pair apart or not approaching, satisfy this by themselves. -/
def NoImpulseOn [FloorRing F] (sqrt : F → F) (deltaTime : F) (mousePosition : ℤ × ℤ)
    (windowSize : ℕ × ℕ) (balls : List (Ball F)) (partition : SpatialPartition F) (i : ℕ) :
    Prop :=
  ∀ k j : ℕ, k < balls.length → j < balls.length →
    (collideWith sqrt k
        (collisionLoopState sqrt k
          (onBody (moveBall deltaTime windowSize) k
            (turnStart sqrt deltaTime mousePosition windowSize balls partition k)) j) j)[i]?
      = (collisionLoopState sqrt k
          (onBody (moveBall deltaTime windowSize) k
            (turnStart sqrt deltaTime mousePosition windowSize balls partition k)) j)[i]?

/-- Successive calls of `updateBalls` from the frame loop of `main` (line
187), one per frame, with the storm inactive and no ball spawned in between;
each frame gives its elapsed time and its window size. -/
def runFrames [FloorRing F] (sqrt : F → F) (mousePosition : ℤ × ℤ) :
    List (F × (ℕ × ℕ)) → List (Ball F) × SpatialPartition F → List (Ball F) × SpatialPartition F
  | [], st => st
  | frame :: frames, st =>
    runFrames sqrt mousePosition frames
      (updateBalls sqrt st.1 frame.1 false mousePosition frame.2 st.2)

/-- In every frame of the run the elapsed time is not negative, the body at
index `i` receives no collision impulse and is airborne. -/
def GravityOnlyRun [FloorRing F] (sqrt : F → F) (mousePosition : ℤ × ℤ) (i : ℕ) :
    List (F × (ℕ × ℕ)) → List (Ball F) × SpatialPartition F → Prop
  | [], _ => True
  | frame :: frames, st =>
    0 ≤ frame.1 ∧ NoImpulseOn sqrt frame.1 mousePosition frame.2 st.1 st.2 i ∧
      (∀ b, st.1[i]? = some b → Airborne frame.1 frame.2 b) ∧
      GravityOnlyRun sqrt mousePosition i frames
        (updateBalls sqrt st.1 frame.1 false mousePosition frame.2 st.2)

/-! ## Frame lemmas: positions -/

theorem wallHandling_inWalls (W : ℕ × ℕ) (p v : Vec2 ℚ) : InWalls W (wallHandling W p v).1 := by
  unfold InWalls wallHandling BALL_RADIUS
  simp only [decide_eq_true_eq]
  refine ⟨?_, ?_, ?_, ?_⟩
  · split_ifs <;> linarith
  · split_ifs <;> linarith
  · intro h
    have h2 : (20 : ℚ) ≤ (W.1 : ℚ) := by exact_mod_cast h
    split_ifs <;> linarith
  · intro h
    have h2 : (20 : ℚ) ≤ (W.2 : ℚ) := by exact_mod_cast h
    split_ifs <;> linarith

theorem handleBallCollision_position (sqrt : F → F) (a b : Ball F) :
    (handleBallCollision sqrt a b).1.position = a.position ∧
      (handleBallCollision sqrt a b).2.position = b.position := by
  unfold handleBallCollision
  simp only
  split_ifs <;> exact ⟨rfl, rfl⟩

theorem map_set_same {α β : Type} (f : α → β) (l : List α) (i : ℕ) (a b : α)
    (h : l[i]? = some a) (hf : f b = f a) : (l.set i b).map f = l.map f := by
  apply List.ext_getElem?
  intro j
  simp only [List.getElem?_map, List.getElem?_set]
  by_cases hij : i = j
  · subst hij
    have hlt : i < l.length := by
      rcases List.getElem?_eq_some_iff.1 h with ⟨hlt, _⟩
      exact hlt
    simp [hlt, h, hf]
  · simp [hij]

theorem collideWith_positions (sqrt : ℚ → ℚ) (i j : ℕ) (balls : List (Ball ℚ)) :
    (collideWith sqrt i balls j).map Ball.position = balls.map Ball.position := by
  unfold collideWith
  split_ifs with hij
  · rfl
  · split
    · rename_i ball otherBall hi hj
      have hp := handleBallCollision_position sqrt ball otherBall
      have h1 : (balls.set i (handleBallCollision sqrt ball otherBall).1)[j]? = some otherBall := by
        rw [List.getElem?_set_ne hij]
        exact hj
      rw [map_set_same Ball.position _ j otherBall _ h1 hp.2,
        map_set_same Ball.position _ i ball _ hi hp.1]
    · rfl

theorem foldl_collideWith_positions (sqrt : ℚ → ℚ) (i : ℕ) (js : List ℕ) (balls : List (Ball ℚ)) :
    (js.foldl (collideWith sqrt i) balls).map Ball.position = balls.map Ball.position := by
  induction js generalizing balls with
  | nil => rfl
  | cons j js ih => rw [List.foldl_cons, ih, collideWith_positions]

theorem collideAll_positions (sqrt : ℚ → ℚ) (i : ℕ) (balls : List (Ball ℚ)) :
    (collideAll sqrt i balls).map Ball.position = balls.map Ball.position :=
  foldl_collideWith_positions sqrt i _ balls

theorem collideAll_length (sqrt : ℚ → ℚ) (i : ℕ) (balls : List (Ball ℚ)) :
    (collideAll sqrt i balls).length = balls.length := by
  have h := congrArg List.length (collideAll_positions sqrt i balls)
  simpa using h

theorem applyStorm_position (sqrt : F → F) (dt : F) (storm : Bool) (m : ℤ × ℤ) (b : Ball F) :
    (applyStorm sqrt dt storm m b).position = b.position := by
  unfold applyStorm
  simp only
  split_ifs <;> rfl

theorem moveBall_inWalls (dt : ℚ) (W : ℕ × ℕ) (b : Ball ℚ) : InWalls W (moveBall dt W b).position := by
  simp only [moveBall]
  exact wallHandling_inWalls W _ _

/-- One iteration of the outer loop writes a single position, that of its own
ball, and the value written is within the walls. -/
theorem updateBall_positions (sqrt : ℚ → ℚ) (dt : ℚ) (storm : Bool) (m : ℤ × ℤ) (W : ℕ × ℕ)
    (st : List (Ball ℚ) × SpatialPartition ℚ) (i : ℕ) :
    ∃ q, InWalls W q ∧
      (updateBall sqrt dt storm m W st i).1.map Ball.position
        = (st.1.map Ball.position).set i q := by
  unfold updateBall
  cases hi : st.1[i]? with
  | none =>
    refine ⟨(wallHandling W ⟨0, 0⟩ ⟨0, 0⟩).1, wallHandling_inWalls W _ _, ?_⟩
    have hlen : st.1.length ≤ i := by
      by_contra hcon
      push_neg at hcon
      rw [List.getElem?_eq_getElem hcon] at hi
      exact Option.noConfusion hi
    simp only
    rw [List.set_eq_of_length_le (by simpa using hlen)]
  | some ball =>
    refine ⟨(moveBall dt W ball).position, moveBall_inWalls dt W ball, ?_⟩
    have hlt : i < st.1.length := (List.getElem?_eq_some_iff.1 hi).1
    simp only
    have hpos := collideAll_positions sqrt i (st.1.set i (moveBall dt W ball))
    cases h2 : (collideAll sqrt i (st.1.set i (moveBall dt W ball)))[i]? with
    | none =>
      simp only
      rw [hpos, List.map_set]
    | some ball2 =>
      simp only
      rw [map_set_same Ball.position _ i ball2 _ h2 (applyStorm_position sqrt dt storm m ball2),
        hpos, List.map_set]

theorem foldl_updateBall_positions (sqrt : ℚ → ℚ) (dt : ℚ) (storm : Bool) (m : ℤ × ℤ)
    (W : ℕ × ℕ) (is : List ℕ) (st : List (Ball ℚ) × SpatialPartition ℚ) (j : ℕ) (q : Vec2 ℚ)
    (h : ((is.foldl (updateBall sqrt dt storm m W) st).1.map Ball.position)[j]? = some q) :
    InWalls W q ∨ (j ∉ is ∧ (st.1.map Ball.position)[j]? = some q) := by
  induction is generalizing st with
  | nil => exact Or.inr ⟨List.not_mem_nil j, h⟩
  | cons i is ih =>
    rw [List.foldl_cons] at h
    rcases ih _ h with hq | ⟨hnot, hst⟩
    · exact Or.inl hq
    · obtain ⟨q0, hq0, heq⟩ := updateBall_positions sqrt dt storm m W st i
      rw [heq, List.getElem?_set] at hst
      by_cases hij : i = j
      · subst hij
        simp only [if_true] at hst
        split_ifs at hst with hlt
        left
        have : q0 = q := by simpa using hst
        exact this ▸ hq0
      · simp only [hij, if_false] at hst
        exact Or.inr ⟨by simp [hnot, Ne.symm hij], hst⟩

theorem updateBalls_positions_inWalls (sqrt : ℚ → ℚ) (balls : List (Ball ℚ)) (dt : ℚ) (storm : Bool)
    (m : ℤ × ℤ) (W : ℕ × ℕ) (p : SpatialPartition ℚ) (b : Ball ℚ)
    (hb : b ∈ (updateBalls sqrt balls dt storm m W p).1) : InWalls W b.position := by
  obtain ⟨j, hj, rfl⟩ := List.mem_iff_getElem.1 hb
  have h : (((List.range balls.length).foldl (updateBall sqrt dt storm m W)
      (balls, p.clear)).1.map Ball.position)[j]? =
      some ((updateBalls sqrt balls dt storm m W p).1[j]).position := by
    rw [List.getElem?_map]
    show Option.map Ball.position ((updateBalls sqrt balls dt storm m W p).1[j]?) = _
    rw [List.getElem?_eq_getElem hj]
    rfl
  rcases foldl_updateBall_positions sqrt dt storm m W _ _ j _ h with hq | ⟨hnot, hst⟩
  · exact hq
  · exfalso
    apply hnot
    rw [List.mem_range]
    have : j < (balls.map Ball.position).length := by
      by_contra hcon
      push_neg at hcon
      rw [List.getElem?_eq_none hcon] at hst
      exact Option.noConfusion hst
    simpa using this


/-! ## Evaluation helpers -/

/-- The library square root is exact on squares of non-negative rationals. -/
theorem sqrt_of_sq (q a : ℚ) (h : a * a = q) (ha : 0 ≤ a) : Rat.sqrt q = a := by
  subst h
  rw [Rat.sqrt_eq, abs_of_nonneg ha]

/-- The step on a collection of one ball: no collision partner, so the ball
is moved, then the storm block runs, then it is inserted. -/
theorem updateBalls_single [FloorRing F] (sqrt : F → F) (b : Ball F) (dt : F) (storm : Bool) (m : ℤ × ℤ)
    (W : ℕ × ℕ) (p : SpatialPartition F) :
    updateBalls sqrt [b] dt storm m W p =
      ([applyStorm sqrt dt storm m (moveBall dt W b)],
        p.clear.addBall 0 (applyStorm sqrt dt storm m (moveBall dt W b))) := by
  rfl

/-- The step on a collection of two balls, turn by turn: the first ball is
moved, tested against the second, pushed by the storm; then the second ball
is moved, tested against the first, pushed by the storm. -/
theorem updateBalls_pair [FloorRing F] (sqrt : F → F) (a b : Ball F) (dt : F) (storm : Bool)
    (m : ℤ × ℤ) (W : ℕ × ℕ) (p : SpatialPartition F) :
    (updateBalls sqrt [a, b] dt storm m W p).1
      = [(handleBallCollision sqrt
            (moveBall dt W (handleBallCollision sqrt (moveBall dt W a) b).2)
            (applyStorm sqrt dt storm m (handleBallCollision sqrt (moveBall dt W a) b).1)).2,
         applyStorm sqrt dt storm m
          (handleBallCollision sqrt
            (moveBall dt W (handleBallCollision sqrt (moveBall dt W a) b).2)
            (applyStorm sqrt dt storm m (handleBallCollision sqrt (moveBall dt W a) b).1)).1] := by
  rfl

/-- The reference step of the specification on a collection of two balls,
turn by turn: each ball is moved and pushed by the storm before it is tested
against the other. -/
theorem referenceStep_pair [FloorRing F] (sqrt : F → F) (a b : Ball F) (dt : F) (storm : Bool)
    (m : ℤ × ℤ) (W : ℕ × ℕ) (p : SpatialPartition F) :
    (referenceStep sqrt [a, b] dt storm m W p).1
      = [(handleBallCollision sqrt
            (applyStorm sqrt dt storm m (moveBall dt W
              (handleBallCollision sqrt (applyStorm sqrt dt storm m (moveBall dt W a)) b).2))
            (handleBallCollision sqrt (applyStorm sqrt dt storm m (moveBall dt W a)) b).1).2,
         (handleBallCollision sqrt
            (applyStorm sqrt dt storm m (moveBall dt W
              (handleBallCollision sqrt (applyStorm sqrt dt storm m (moveBall dt W a)) b).2))
            (handleBallCollision sqrt (applyStorm sqrt dt storm m (moveBall dt W a)) b).1).1] := by
  rfl

/-- With the storm inactive the storm block returns the ball as it is. -/
theorem applyStorm_off (sqrt : F → F) (dt : F) (m : ℤ × ℤ) (ball : Ball F) :
    applyStorm sqrt dt false m ball = ball := by
  unfold applyStorm
  exact if_neg Bool.false_ne_true

/-- Two balls at computed distance at least `2 * BALL_RADIUS` are returned
unchanged. -/
theorem handleBallCollision_of_far (sqrt : F → F) (a b : Ball F)
    (h : 2 * BALL_RADIUS ≤ collisionDistance sqrt a b) : handleBallCollision sqrt a b = (a, b) := by
  simp only [handleBallCollision, if_neg (not_lt.2 h)]

/-- Two balls whose projected relative velocity is not negative are returned
unchanged. -/
theorem handleBallCollision_of_separating (sqrt : F → F) (a b : Ball F)
    (h : 0 ≤ relativeVelocity sqrt a b) : handleBallCollision sqrt a b = (a, b) := by
  simp only [handleBallCollision, if_neg (not_lt.2 h)]
  split_ifs <;> rfl

/-- Two overlapping, approaching balls exchange the impulse of lines
73-75. -/
theorem handleBallCollision_of_impulse (sqrt : F → F) (a b : Ball F)
    (hlt : collisionDistance sqrt a b < 2 * BALL_RADIUS) (hrv : relativeVelocity sqrt a b < 0) :
    handleBallCollision sqrt a b
      = (⟨a.position, a.velocity.sub ((collisionNormal sqrt a b).scale
            ((1 + 4 / 5) * relativeVelocity sqrt a b / (2 / BALL_DENSITY) / BALL_DENSITY))⟩,
         ⟨b.position, b.velocity.add ((collisionNormal sqrt a b).scale
            ((1 + 4 / 5) * relativeVelocity sqrt a b / (2 / BALL_DENSITY) / BALL_DENSITY))⟩) := by
  simp only [handleBallCollision, if_pos hlt, if_pos hrv]

/-- What the storm block adds, over any ordered field: for a ball at
computed distance `d > 0` from the pointer the velocity gains
`((position - pointer) / d) * 2000 * deltaTime`. -/
theorem applyStorm_on (sqrt : F → F) (deltaTime : F) (mousePosition : ℤ × ℤ) (ball : Ball F)
    (hd : 0 < stormDistance sqrt mousePosition ball) :
    applyStorm sqrt deltaTime true mousePosition ball
        = ⟨ball.position, ball.velocity.add
            ((((stormDirection mousePosition ball).divide
              (stormDistance sqrt mousePosition ball)).scale STORM_FORCE).scale deltaTime)⟩ := by
  simp only [applyStorm, if_true, gt_iff_lt, if_pos hd]

/-! ## C1: wall containment -/

/-- C1, counterexample: in a 15 by 15 viewport a ball at (7, 7) ends the
step at (5, 5), left of and above the line at distance `BALL_RADIUS`. -/
theorem wall_containment_fails_small_viewport :
    ∃ b ∈ (updateBalls Rat.sqrt [⟨⟨7, 7⟩, ⟨0, 0⟩⟩] 0 false (0, 0) (15, 15) ⟨GRID_SIZE, []⟩).1,
      b.position.x < BALL_RADIUS ∧ b.position.y < BALL_RADIUS := by
  refine ⟨⟨⟨5, 5⟩, ⟨0, 0⟩⟩, ?_, ?_⟩
  · simp [updateBalls_single, applyStorm, moveBall, wallHandling, Vec2.add, Vec2.scale, GRAVITY,
      BALL_RADIUS]
    norm_num
  · norm_num [BALL_RADIUS]

/-- C1, amended: after `updateBalls` every body has `x ≤ W - 10` and
`y ≤ H - 10` for every viewport, `10 ≤ x` when `W ≥ 20` and `10 ≤ y` when
`H ≥ 20`. -/
theorem updateBalls_wall_containment (sqrt : ℚ → ℚ) (balls : List (Ball ℚ)) (deltaTime : ℚ)
    (stormActive : Bool) (mousePosition : ℤ × ℤ) (W H : ℕ) (partition : SpatialPartition ℚ) :
    ∀ b ∈ (updateBalls sqrt balls deltaTime stormActive mousePosition (W, H) partition).1,
      b.position.x ≤ (W : ℚ) - BALL_RADIUS ∧ b.position.y ≤ (H : ℚ) - BALL_RADIUS ∧
        (20 ≤ W → BALL_RADIUS ≤ b.position.x) ∧ (20 ≤ H → BALL_RADIUS ≤ b.position.y) :=
  fun b hb =>
    updateBalls_positions_inWalls sqrt balls deltaTime stormActive mousePosition (W, H) partition
      b hb

/-- C1, witness: a ball dropped from (100, 100) in an 800 by 600 viewport
lands on the floor line and is within all four bounds. -/
theorem updateBalls_wall_containment_witness :
    (⟨⟨100, 590⟩, ⟨0, -448⟩⟩ : Ball ℚ) ∈
        (updateBalls Rat.sqrt [⟨⟨100, 100⟩, ⟨0, 0⟩⟩] 1 false (0, 0) (800, 600) ⟨GRID_SIZE, []⟩).1 ∧
      ((100 : ℚ) ≤ ((800 : ℕ) : ℚ) - BALL_RADIUS ∧ (590 : ℚ) ≤ ((600 : ℕ) : ℚ) - BALL_RADIUS ∧
        (20 ≤ 800 → BALL_RADIUS ≤ (100 : ℚ)) ∧ (20 ≤ 600 → BALL_RADIUS ≤ (590 : ℚ))) :=
  have hmem : (⟨⟨100, 590⟩, ⟨0, -448⟩⟩ : Ball ℚ) ∈
      (updateBalls Rat.sqrt [⟨⟨100, 100⟩, ⟨0, 0⟩⟩] 1 false (0, 0) (800, 600) ⟨GRID_SIZE, []⟩).1 := by
    simp [updateBalls_single, applyStorm, moveBall, wallHandling, Vec2.add, Vec2.scale, GRAVITY,
      BALL_RADIUS]
    norm_num
  ⟨hmem, updateBalls_wall_containment Rat.sqrt _ 1 false (0, 0) 800 600 ⟨GRID_SIZE, []⟩ _ hmem⟩


/-! ## C2: coincident centers -/

/-- C2, the code at coincident centers: `distance` is `sqrt 0 = 0`, which is
below `combinedRadius`, so the overlap branch runs and `delta / distance`
divides by zero (twice, once per component).  The velocities come out
unchanged: the projection is not negative (`0 / 0` is `0` here, NaN in IEEE
arithmetic, and neither is `< 0`). -/
theorem handleBallCollision_coincident_divides_by_zero (p v1 v2 : Vec2 ℚ) :
    handleBallCollisionDivisors Rat.sqrt ⟨p, v1⟩ ⟨p, v2⟩ = [0, 0] ∧
      handleBallCollision Rat.sqrt ⟨p, v1⟩ ⟨p, v2⟩ = (⟨p, v1⟩, ⟨p, v2⟩) := by
  have h0 : Rat.sqrt 0 = 0 := sqrt_of_sq 0 0 (by norm_num) (le_refl 0)
  constructor
  · simp [handleBallCollisionDivisors, collisionDistance, collisionDelta, collisionNormal,
      relativeVelocity, Vec2.sub, Vec2.divide, h0, BALL_RADIUS]
  · simp [handleBallCollision, collisionDistance, collisionDelta, collisionNormal,
      relativeVelocity, Vec2.sub, Vec2.divide, h0, BALL_RADIUS]

/-! ## C3: restitution law -/

/-- With an exact square root and distinct centers the normal is a unit
vector. -/
theorem collisionNormal_unit (sqrt : F → F) (ball1 ball2 : Ball F)
    (hne : ball1.position ≠ ball2.position)
    (hexact : collisionDistance sqrt ball1 ball2 * collisionDistance sqrt ball1 ball2
      = (collisionDelta ball1 ball2).x * (collisionDelta ball1 ball2).x
        + (collisionDelta ball1 ball2).y * (collisionDelta ball1 ball2).y) :
    (collisionNormal sqrt ball1 ball2).x * (collisionNormal sqrt ball1 ball2).x
      + (collisionNormal sqrt ball1 ball2).y * (collisionNormal sqrt ball1 ball2).y = 1 := by
  have hd : collisionDistance sqrt ball1 ball2 ≠ 0 := by
    intro h0
    rw [h0] at hexact
    apply hne
    have hx : (collisionDelta ball1 ball2).x = 0 := by nlinarith [mul_self_nonneg (collisionDelta ball1 ball2).x, mul_self_nonneg (collisionDelta ball1 ball2).y]
    have hy : (collisionDelta ball1 ball2).y = 0 := by nlinarith [mul_self_nonneg (collisionDelta ball1 ball2).x, mul_self_nonneg (collisionDelta ball1 ball2).y]
    simp only [collisionDelta, Vec2.sub] at hx hy
    cases hp1 : ball1.position
    cases hp2 : ball2.position
    rw [hp1, hp2] at hx hy
    simp only at hx hy
    congr 1 <;> linarith
  simp only [collisionNormal, Vec2.divide]
  rw [div_mul_div_comm, div_mul_div_comm, ← add_div, ← hexact]
  exact div_self (mul_ne_zero hd hd)

/-- The restitution law over any ordered field, for a square root that is
exact at the squared distance of the two centers. -/
theorem handleBallCollision_restitution_of_exact (sqrt : F → F) (ball1 ball2 : Ball F)
    (hne : ball1.position ≠ ball2.position)
    (hexact : collisionDistance sqrt ball1 ball2 * collisionDistance sqrt ball1 ball2
      = (collisionDelta ball1 ball2).x * (collisionDelta ball1 ball2).x
        + (collisionDelta ball1 ball2).y * (collisionDelta ball1 ball2).y)
    (hlt : collisionDistance sqrt ball1 ball2 < 20)
    (hrv : relativeVelocity sqrt ball1 ball2 < 0) :
    relativeVelocity sqrt (handleBallCollision sqrt ball1 ball2).1
        (handleBallCollision sqrt ball1 ball2).2
      = -(4 / 5) * relativeVelocity sqrt ball1 ball2 ∧
    (handleBallCollision sqrt ball1 ball2).1.velocity.x * -(collisionNormal sqrt ball1 ball2).y
        + (handleBallCollision sqrt ball1 ball2).1.velocity.y * (collisionNormal sqrt ball1 ball2).x
      = ball1.velocity.x * -(collisionNormal sqrt ball1 ball2).y
        + ball1.velocity.y * (collisionNormal sqrt ball1 ball2).x ∧
    (handleBallCollision sqrt ball1 ball2).2.velocity.x * -(collisionNormal sqrt ball1 ball2).y
        + (handleBallCollision sqrt ball1 ball2).2.velocity.y * (collisionNormal sqrt ball1 ball2).x
      = ball2.velocity.x * -(collisionNormal sqrt ball1 ball2).y
        + ball2.velocity.y * (collisionNormal sqrt ball1 ball2).x ∧
    (∀ c : F, ball1.velocity = (collisionNormal sqrt ball1 ball2).scale c →
      ball2.velocity = (collisionNormal sqrt ball1 ball2).scale (-c) →
      (handleBallCollision sqrt ball1 ball2).1.velocity = ball1.velocity.scale (-(4 / 5)) ∧
      (handleBallCollision sqrt ball1 ball2).2.velocity = ball2.velocity.scale (-(4 / 5))) := by
  have hn := collisionNormal_unit sqrt ball1 ball2 hne hexact
  have hlt2 : collisionDistance sqrt ball1 ball2 < 2 * BALL_RADIUS := by
    norm_num [BALL_RADIUS]; exact hlt
  have hres : handleBallCollision sqrt ball1 ball2 =
      ({ ball1 with velocity := ball1.velocity.sub ((collisionNormal sqrt ball1 ball2).scale
          ((1 + 4 / 5) * relativeVelocity sqrt ball1 ball2 / (2 / BALL_DENSITY) / BALL_DENSITY)) },
       { ball2 with velocity := ball2.velocity.add ((collisionNormal sqrt ball1 ball2).scale
          ((1 + 4 / 5) * relativeVelocity sqrt ball1 ball2 / (2 / BALL_DENSITY) / BALL_DENSITY)) }) := by
    simp only [handleBallCollision, if_pos hlt2, if_pos hrv]
  have hnormal : collisionNormal sqrt (handleBallCollision sqrt ball1 ball2).1
      (handleBallCollision sqrt ball1 ball2).2 = collisionNormal sqrt ball1 ball2 := by
    rw [hres]; rfl
  refine ⟨?_, ?_, ?_, ?_⟩
  · rw [relativeVelocity, hnormal, hres]
    simp only [relativeVelocity, Vec2.sub, Vec2.add, Vec2.scale, BALL_DENSITY] at hn ⊢
    linear_combination
      (-(9 / 5) * ((ball1.velocity.x - ball2.velocity.x) * (collisionNormal sqrt ball1 ball2).x
        + (ball1.velocity.y - ball2.velocity.y) * (collisionNormal sqrt ball1 ball2).y)) * hn
  · rw [hres]
    simp only [Vec2.sub, Vec2.scale]
    ring
  · rw [hres]
    simp only [Vec2.add, Vec2.scale]
    ring
  · intro c h1 h2
    rw [hres]
    simp only [relativeVelocity, h1, h2, Vec2.sub, Vec2.add, Vec2.scale, BALL_DENSITY]
    constructor
    · congr 1
      · linear_combination
          (-(9 / 5) * c * (collisionNormal sqrt ball1 ball2).x) * hn
      · linear_combination
          (-(9 / 5) * c * (collisionNormal sqrt ball1 ball2).y) * hn
    · congr 1
      · linear_combination
          ((9 / 5) * c * (collisionNormal sqrt ball1 ball2).x) * hn
      · linear_combination
          ((9 / 5) * c * (collisionNormal sqrt ball1 ball2).y) * hn


/-- The real square root is exact at every squared distance. -/
theorem collisionDistance_real_exact (ball1 ball2 : Ball ℝ) :
    collisionDistance Real.sqrt ball1 ball2 * collisionDistance Real.sqrt ball1 ball2
      = (collisionDelta ball1 ball2).x * (collisionDelta ball1 ball2).x
        + (collisionDelta ball1 ball2).y * (collisionDelta ball1 ball2).y := by
  unfold collisionDistance
  exact Real.mul_self_sqrt (add_nonneg (mul_self_nonneg _) (mul_self_nonneg _))

/-- C3: in real arithmetic, for every two bodies with distinct centers at
distance below 20 whose relative velocity projected on the center-to-center
normal is negative, the normal is a unit vector, `handleBallCollision` turns
the projected relative velocity into `-0.8` times its value, keeps the
tangential component of each velocity, and in the head-on equal-speed case
multiplies each velocity by `-0.8`. -/
theorem handleBallCollision_restitution (ball1 ball2 : Ball ℝ)
    (hne : ball1.position ≠ ball2.position)
    (hlt : collisionDistance Real.sqrt ball1 ball2 < 20)
    (hrv : relativeVelocity Real.sqrt ball1 ball2 < 0) :
    (collisionNormal Real.sqrt ball1 ball2).x * (collisionNormal Real.sqrt ball1 ball2).x
        + (collisionNormal Real.sqrt ball1 ball2).y * (collisionNormal Real.sqrt ball1 ball2).y
      = 1 ∧
    relativeVelocity Real.sqrt (handleBallCollision Real.sqrt ball1 ball2).1
        (handleBallCollision Real.sqrt ball1 ball2).2
      = -(4 / 5) * relativeVelocity Real.sqrt ball1 ball2 ∧
    (handleBallCollision Real.sqrt ball1 ball2).1.velocity.x
          * -(collisionNormal Real.sqrt ball1 ball2).y
        + (handleBallCollision Real.sqrt ball1 ball2).1.velocity.y
          * (collisionNormal Real.sqrt ball1 ball2).x
      = ball1.velocity.x * -(collisionNormal Real.sqrt ball1 ball2).y
        + ball1.velocity.y * (collisionNormal Real.sqrt ball1 ball2).x ∧
    (handleBallCollision Real.sqrt ball1 ball2).2.velocity.x
          * -(collisionNormal Real.sqrt ball1 ball2).y
        + (handleBallCollision Real.sqrt ball1 ball2).2.velocity.y
          * (collisionNormal Real.sqrt ball1 ball2).x
      = ball2.velocity.x * -(collisionNormal Real.sqrt ball1 ball2).y
        + ball2.velocity.y * (collisionNormal Real.sqrt ball1 ball2).x ∧
    (∀ c : ℝ, ball1.velocity = (collisionNormal Real.sqrt ball1 ball2).scale c →
      ball2.velocity = (collisionNormal Real.sqrt ball1 ball2).scale (-c) →
      (handleBallCollision Real.sqrt ball1 ball2).1.velocity = ball1.velocity.scale (-(4 / 5)) ∧
      (handleBallCollision Real.sqrt ball1 ball2).2.velocity
        = ball2.velocity.scale (-(4 / 5))) :=
  ⟨collisionNormal_unit Real.sqrt ball1 ball2 hne (collisionDistance_real_exact ball1 ball2),
    handleBallCollision_restitution_of_exact Real.sqrt ball1 ball2 hne
      (collisionDistance_real_exact ball1 ball2) hlt hrv⟩

/-- C3, witness: balls at (100, 100) and (110, 110), at the irrational
distance `√200`, moving toward each other with velocities (1, 1) and
(-1, -1). -/
theorem handleBallCollision_restitution_witness :
    (⟨⟨100, 100⟩, ⟨1, 1⟩⟩ : Ball ℝ).position ≠ (⟨⟨110, 110⟩, ⟨-1, -1⟩⟩ : Ball ℝ).position ∧
      collisionDistance Real.sqrt ⟨⟨100, 100⟩, ⟨1, 1⟩⟩ ⟨⟨110, 110⟩, ⟨-1, -1⟩⟩ < 20 ∧
      relativeVelocity Real.sqrt ⟨⟨100, 100⟩, ⟨1, 1⟩⟩ ⟨⟨110, 110⟩, ⟨-1, -1⟩⟩ < 0 ∧
      relativeVelocity Real.sqrt
          (handleBallCollision Real.sqrt ⟨⟨100, 100⟩, ⟨1, 1⟩⟩ ⟨⟨110, 110⟩, ⟨-1, -1⟩⟩).1
          (handleBallCollision Real.sqrt ⟨⟨100, 100⟩, ⟨1, 1⟩⟩ ⟨⟨110, 110⟩, ⟨-1, -1⟩⟩).2
        = -(4 / 5) * relativeVelocity Real.sqrt ⟨⟨100, 100⟩, ⟨1, 1⟩⟩ ⟨⟨110, 110⟩, ⟨-1, -1⟩⟩ :=
  have hpos : (0 : ℝ) < Real.sqrt 200 := Real.sqrt_pos.2 (by norm_num)
  have hd : collisionDistance Real.sqrt ⟨⟨100, 100⟩, ⟨1, 1⟩⟩ ⟨⟨110, 110⟩, ⟨-1, -1⟩⟩
      = Real.sqrt 200 := by
    simp only [collisionDistance, collisionDelta, Vec2.sub]
    norm_num
  have hne : (⟨⟨100, 100⟩, ⟨1, 1⟩⟩ : Ball ℝ).position
      ≠ (⟨⟨110, 110⟩, ⟨-1, -1⟩⟩ : Ball ℝ).position := by
    simp
  have hlt : collisionDistance Real.sqrt ⟨⟨100, 100⟩, ⟨1, 1⟩⟩ ⟨⟨110, 110⟩, ⟨-1, -1⟩⟩ < 20 := by
    rw [hd, Real.sqrt_lt' (by norm_num)]
    norm_num
  have hrv : relativeVelocity Real.sqrt ⟨⟨100, 100⟩, ⟨1, 1⟩⟩ ⟨⟨110, 110⟩, ⟨-1, -1⟩⟩ < 0 := by
    simp only [relativeVelocity, collisionNormal, hd, Vec2.divide]
    simp only [collisionDelta, Vec2.sub]
    have hq : (100 - 110 : ℝ) / Real.sqrt 200 < 0 :=
      div_neg_of_neg_of_pos (by norm_num) hpos
    nlinarith
  ⟨hne, hlt, hrv,
    (handleBallCollision_restitution ⟨⟨100, 100⟩, ⟨1, 1⟩⟩ ⟨⟨110, 110⟩, ⟨-1, -1⟩⟩ hne hlt
      hrv).2.1⟩

/-! ## C4: cell key of insert -/

/-- C4, the code at a negative coordinate: a body at (-10, 30) with cell
size 50 is put into the bucket keyed (0, 0), while the floor of `-10 / 50`
is `-1`: the cast truncates toward zero. -/
theorem addBall_truncates_negative_coordinate :
    (SpatialPartition.addBall (⟨GRID_SIZE, []⟩ : SpatialPartition ℚ) 0 ⟨⟨-10, 30⟩, ⟨0, 0⟩⟩).grid = [((0, 0), [0])] ∧
      (⌊(-10 : ℚ) / GRID_SIZE⌋, ⌊(30 : ℚ) / GRID_SIZE⌋) = ((-1 : ℤ), (0 : ℤ)) := by
  have hc : ⌈(-10 : ℚ) / 50⌉ = 0 := by
    rw [Int.ceil_eq_iff]; norm_num
  have hf : ⌊(30 : ℚ) / 50⌋ = 0 := by
    rw [Int.floor_eq_iff]; norm_num
  have hf2 : ⌊(-10 : ℚ) / 50⌋ = -1 := by
    rw [Int.floor_eq_iff]; norm_num
  have hneg : ¬ (0 : ℚ) ≤ -10 / 50 := by norm_num
  have hpos : (0 : ℚ) ≤ 30 / 50 := by norm_num
  constructor
  · simp only [SpatialPartition.addBall, SpatialPartition.cellKey, castInt, GRID_SIZE, if_neg hneg,
      if_pos hpos, hc, hf, Grid.pushBack]
  · simp only [GRID_SIZE, hf, hf2]

/-! ## C9: impulse only for overlapping, approaching bodies -/

/-- C9: `handleBallCollision` returns both balls unchanged when the computed
distance is at least 20 (20 included) or the projected relative velocity is
not negative; when it changes anything, the distance is below 20 and the
projection is negative.  When the square root is exact and not negative at
the squared distance, "distance at least 20" is "squared Euclidean distance
at least 400". -/
theorem handleBallCollision_impulse_condition (sqrt : ℚ → ℚ) (ball1 ball2 : Ball ℚ) :
    (20 ≤ collisionDistance sqrt ball1 ball2 ∨ 0 ≤ relativeVelocity sqrt ball1 ball2 →
      handleBallCollision sqrt ball1 ball2 = (ball1, ball2)) ∧
    (handleBallCollision sqrt ball1 ball2 ≠ (ball1, ball2) →
      collisionDistance sqrt ball1 ball2 < 20 ∧ relativeVelocity sqrt ball1 ball2 < 0) ∧
    (0 ≤ collisionDistance sqrt ball1 ball2 →
      collisionDistance sqrt ball1 ball2 * collisionDistance sqrt ball1 ball2
        = (collisionDelta ball1 ball2).x * (collisionDelta ball1 ball2).x
          + (collisionDelta ball1 ball2).y * (collisionDelta ball1 ball2).y →
      (20 ≤ collisionDistance sqrt ball1 ball2 ↔
        400 ≤ (collisionDelta ball1 ball2).x * (collisionDelta ball1 ball2).x
          + (collisionDelta ball1 ball2).y * (collisionDelta ball1 ball2).y)) := by
  have key : 20 ≤ collisionDistance sqrt ball1 ball2 ∨ 0 ≤ relativeVelocity sqrt ball1 ball2 →
      handleBallCollision sqrt ball1 ball2 = (ball1, ball2) := by
    intro h
    simp only [handleBallCollision, BALL_RADIUS]
    split_ifs with h1 h2
    · rcases h with h | h
      · norm_num at h1; linarith
      · linarith
    · rfl
    · rfl
  refine ⟨key, ?_, ?_⟩
  · intro hchg
    by_contra hcon
    apply hchg
    apply key
    by_contra hk
    push_neg at hk
    exact hcon ⟨hk.1, hk.2⟩
  · intro h0 hex
    rw [← hex]
    constructor
    · intro h20
      nlinarith
    · intro h400
      by_contra hcon
      push_neg at hcon
      nlinarith

/-- C9, witness: two balls exactly touching (distance 20) and approaching
keep their velocities. -/
theorem handleBallCollision_impulse_condition_witness :
    (20 ≤ collisionDistance Rat.sqrt touchingLeft touchingRight ∨
        0 ≤ relativeVelocity Rat.sqrt touchingLeft touchingRight) ∧
      handleBallCollision Rat.sqrt touchingLeft touchingRight = (touchingLeft, touchingRight) :=
  have h400 : Rat.sqrt 400 = 20 := sqrt_of_sq 400 20 (by norm_num) (by norm_num)
  have hd : 20 ≤ collisionDistance Rat.sqrt touchingLeft touchingRight ∨
      0 ≤ relativeVelocity Rat.sqrt touchingLeft touchingRight := by
    left
    simp only [collisionDistance, collisionDelta, Vec2.sub, touchingLeft, touchingRight]
    norm_num [h400]
  ⟨hd, (handleBallCollision_impulse_condition Rat.sqrt touchingLeft touchingRight).1 hd⟩


/-! ## C5: partition rebuild -/

theorem pushBack_flatten_perm (g : Grid) (key : ℤ × ℤ) (ptr : ℕ) :
    (((g.pushBack key ptr).map Prod.snd).flatten).Perm (ptr :: (g.map Prod.snd).flatten) := by
  induction g with
  | nil => simp [Grid.pushBack]
  | cons e rest ih =>
    obtain ⟨k, bucket⟩ := e
    unfold Grid.pushBack
    split_ifs with hk
    · simp only [List.map_cons, List.flatten_cons, List.append_assoc, List.singleton_append]
      exact List.perm_middle
    · simp only [List.map_cons, List.flatten_cons]
      exact (List.Perm.append_left bucket ih).trans List.perm_middle

theorem addBall_allBalls_perm (p : SpatialPartition ℚ) (ptr : ℕ) (ball : Ball ℚ) :
    (p.addBall ptr ball).allBalls.Perm (ptr :: p.allBalls) :=
  pushBack_flatten_perm p.grid (p.cellKey ball) ptr

theorem updateBall_length (sqrt : ℚ → ℚ) (dt : ℚ) (storm : Bool) (m : ℤ × ℤ) (W : ℕ × ℕ)
    (st : List (Ball ℚ) × SpatialPartition ℚ) (i : ℕ) :
    (updateBall sqrt dt storm m W st i).1.length = st.1.length := by
  obtain ⟨q, _, heq⟩ := updateBall_positions sqrt dt storm m W st i
  have h := congrArg List.length heq
  simpa using h

/-- One iteration of the outer loop inserts its own pointer, once. -/
theorem updateBall_allBalls_perm (sqrt : ℚ → ℚ) (dt : ℚ) (storm : Bool) (m : ℤ × ℤ) (W : ℕ × ℕ)
    (st : List (Ball ℚ) × SpatialPartition ℚ) (i : ℕ) (hi : i < st.1.length) :
    (updateBall sqrt dt storm m W st i).2.allBalls.Perm (i :: st.2.allBalls) := by
  unfold updateBall
  rw [List.getElem?_eq_getElem hi]
  simp only
  have hlen : i < (collideAll sqrt i (st.1.set i (moveBall dt W st.1[i]))).length := by
    rw [collideAll_length, List.length_set]
    exact hi
  rw [List.getElem?_eq_getElem hlen]
  simp only
  exact addBall_allBalls_perm _ _ _

theorem foldl_updateBall_allBalls_perm (sqrt : ℚ → ℚ) (dt : ℚ) (storm : Bool) (m : ℤ × ℤ)
    (W : ℕ × ℕ) (is : List ℕ) (st : List (Ball ℚ) × SpatialPartition ℚ)
    (his : ∀ i ∈ is, i < st.1.length) :
    (is.foldl (updateBall sqrt dt storm m W) st).2.allBalls.Perm (is ++ st.2.allBalls) := by
  induction is generalizing st with
  | nil => exact List.Perm.refl _
  | cons i is ih =>
    rw [List.foldl_cons]
    have hi : i < st.1.length := his i (List.mem_cons_self i is)
    have his2 : ∀ k ∈ is, k < (updateBall sqrt dt storm m W st i).1.length := by
      intro k hk
      rw [updateBall_length]
      exact his k (List.mem_cons_of_mem i hk)
    refine (ih _ his2).trans ?_
    refine (List.Perm.append_left is (updateBall_allBalls_perm sqrt dt storm m W st i hi)).trans ?_
    exact List.perm_middle

theorem foldl_updateBall_length (sqrt : ℚ → ℚ) (dt : ℚ) (storm : Bool) (m : ℤ × ℤ)
    (W : ℕ × ℕ) (is : List ℕ) (st : List (Ball ℚ) × SpatialPartition ℚ) :
    (is.foldl (updateBall sqrt dt storm m W) st).1.length = st.1.length := by
  induction is generalizing st with
  | nil => rfl
  | cons i is ih => rw [List.foldl_cons, ih, updateBall_length]

/-- C5: whatever the partition held before, after `updateBalls` the buckets
taken together hold every pointer of the collection (the indices below its
length) exactly once and nothing else; the collection keeps its length. -/
theorem updateBalls_partition_rebuild (sqrt : ℚ → ℚ) (balls : List (Ball ℚ)) (deltaTime : ℚ)
    (stormActive : Bool) (mousePosition : ℤ × ℤ) (windowSize : ℕ × ℕ)
    (partition : SpatialPartition ℚ) :
    (updateBalls sqrt balls deltaTime stormActive mousePosition windowSize partition).2.allBalls.Perm
        (List.range balls.length) ∧
      (updateBalls sqrt balls deltaTime stormActive mousePosition windowSize partition).2.allBalls.Nodup ∧
      (updateBalls sqrt balls deltaTime stormActive mousePosition windowSize partition).1.length
        = balls.length := by
  have hperm : (updateBalls sqrt balls deltaTime stormActive mousePosition windowSize
      partition).2.allBalls.Perm (List.range balls.length) := by
    have h := foldl_updateBall_allBalls_perm sqrt deltaTime stormActive mousePosition windowSize
      (List.range balls.length) (balls, partition.clear) (fun i hi => List.mem_range.1 hi)
    have hclear : (balls, partition.clear).2.allBalls = [] := rfl
    rw [hclear, List.append_nil] at h
    exact h
  exact ⟨hperm, (List.Perm.nodup_iff hperm).2 (List.nodup_range _),
    foldl_updateBall_length sqrt deltaTime stormActive mousePosition windowSize _ _⟩


/-! ## C6: storm force -/

/-- C7: a single body, storm inactive, viewport height at least 20, whose
tentative `y` plus the radius exceeds the height: after `updateBalls` its `y`
is `H - 10` and its vertical velocity is `-0.8 * (vy + 560 * deltaTime)`.
That the top wall is not crossed follows from the two hypotheses. -/
theorem updateBalls_floor_bounce (sqrt : ℚ → ℚ) (b : Ball ℚ) (deltaTime : ℚ)
    (mousePosition : ℤ × ℤ) (W H : ℕ) (partition : SpatialPartition ℚ)
    (hH : 20 ≤ H)
    (hfloor : b.position.y + (b.velocity.y + GRAVITY * deltaTime) * deltaTime + BALL_RADIUS
      > (H : ℚ)) :
    ∃ b', (updateBalls sqrt [b] deltaTime false mousePosition (W, H) partition).1 = [b'] ∧
      b'.position.y = (H : ℚ) - BALL_RADIUS ∧
      b'.velocity.y = -(4 / 5) * (b.velocity.y + GRAVITY * deltaTime) := by
  have hH2 : (20 : ℚ) ≤ (H : ℚ) := by exact_mod_cast hH
  refine ⟨moveBall deltaTime (W, H) b, ?_, ?_, ?_⟩
  · rw [updateBalls_single]
    simp [applyStorm]
  · simp only [moveBall, wallHandling, Vec2.add, Vec2.scale, BALL_RADIUS, decide_eq_true_eq] at hfloor ⊢
    have htop : ¬ (b.position.y + (b.velocity.y + GRAVITY * deltaTime) * deltaTime - 10 < 0) := by
      linarith
    rw [if_neg htop, if_pos hfloor]
  · simp only [moveBall, wallHandling, Vec2.add, Vec2.scale, BALL_RADIUS, decide_eq_true_eq] at hfloor ⊢
    have htop : ¬ (b.position.y + (b.velocity.y + GRAVITY * deltaTime) * deltaTime - 10 < 0) := by
      linarith
    rw [if_neg htop, if_neg htop, if_pos hfloor]
    ring

/-- C7, witness: a ball at rest at (100, 100) in an 800 by 600 viewport
reaches the floor in a step of one second. -/
theorem updateBalls_floor_bounce_witness :
    20 ≤ 600 ∧
      (⟨⟨100, 100⟩, ⟨0, 0⟩⟩ : Ball ℚ).position.y
          + ((⟨⟨100, 100⟩, ⟨0, 0⟩⟩ : Ball ℚ).velocity.y + GRAVITY * 1) * 1 + BALL_RADIUS
        > ((600 : ℕ) : ℚ) ∧
      ∃ b', (updateBalls Rat.sqrt [⟨⟨100, 100⟩, ⟨0, 0⟩⟩] 1 false (0, 0) (800, 600)
          ⟨GRID_SIZE, []⟩).1 = [b'] ∧
        b'.position.y = ((600 : ℕ) : ℚ) - BALL_RADIUS ∧
        b'.velocity.y = -(4 / 5) * ((⟨⟨100, 100⟩, ⟨0, 0⟩⟩ : Ball ℚ).velocity.y + GRAVITY * 1) :=
  have hfloor : (⟨⟨100, 100⟩, ⟨0, 0⟩⟩ : Ball ℚ).position.y
      + ((⟨⟨100, 100⟩, ⟨0, 0⟩⟩ : Ball ℚ).velocity.y + GRAVITY * 1) * 1 + BALL_RADIUS
      > ((600 : ℕ) : ℚ) := by
    norm_num [GRAVITY, BALL_RADIUS]
  ⟨by norm_num, hfloor,
    updateBalls_floor_bounce Rat.sqrt ⟨⟨100, 100⟩, ⟨0, 0⟩⟩ 1 (0, 0) 800 600 ⟨GRID_SIZE, []⟩
      (by norm_num) hfloor⟩


/-! ## C8: order of the phases -/

theorem onBody_id (phase : Ball ℚ → Ball ℚ) (hphase : ∀ b, phase b = b) (i : ℕ) (balls : List (Ball ℚ)) :
    onBody phase i balls = balls := by
  unfold onBody
  cases hi : balls[i]? with
  | none => rfl
  | some ball =>
    simp only
    rw [hphase]
    apply List.ext_getElem?
    intro j
    rw [List.getElem?_set]
    by_cases hij : i = j
    · subst hij
      have hlt : i < balls.length := (List.getElem?_eq_some_iff.1 hi).1
      simp [hlt, hi]
    · simp [hij]

theorem collideWith_out_of_range (sqrt : ℚ → ℚ) (i j : ℕ) (balls : List (Ball ℚ))
    (hi : balls[i]? = none) : collideWith sqrt i balls j = balls := by
  unfold collideWith
  split_ifs
  · rfl
  · rw [hi]

theorem collideAll_out_of_range (sqrt : ℚ → ℚ) (i : ℕ) (balls : List (Ball ℚ))
    (hi : balls[i]? = none) : collideAll sqrt i balls = balls := by
  unfold collideAll
  generalize List.range balls.length = js
  induction js with
  | nil => rfl
  | cons j js ih => rw [List.foldl_cons, collideWith_out_of_range sqrt i j balls hi, ih]

/-- One iteration of the outer loop is: move the ball, resolve its
collisions, apply the storm block to it, insert it. -/
theorem updateBall_eq_phases (sqrt : ℚ → ℚ) (dt : ℚ) (storm : Bool) (m : ℤ × ℤ) (W : ℕ × ℕ)
    (st : List (Ball ℚ) × SpatialPartition ℚ) (i : ℕ) :
    updateBall sqrt dt storm m W st i =
      insertBody i
        (onBody (applyStorm sqrt dt storm m) i (collideAll sqrt i (onBody (moveBall dt W) i st.1)),
         st.2) := by
  unfold updateBall
  cases hi : st.1[i]? with
  | none =>
    have h1 : onBody (moveBall dt W) i st.1 = st.1 := by
      unfold onBody
      rw [hi]
    rw [h1, collideAll_out_of_range sqrt i st.1 hi]
    have h2 : onBody (applyStorm sqrt dt storm m) i st.1 = st.1 := by
      unfold onBody
      rw [hi]
    rw [h2]
    unfold insertBody
    simp only [hi]
  | some ball =>
    have h1 : onBody (moveBall dt W) i st.1 = st.1.set i (moveBall dt W ball) := by
      unfold onBody
      rw [hi]
    rw [h1]
    simp only
    cases h2 : (collideAll sqrt i (st.1.set i (moveBall dt W ball)))[i]? with
    | none =>
      have h3 : onBody (applyStorm sqrt dt storm m) i
          (collideAll sqrt i (st.1.set i (moveBall dt W ball)))
          = collideAll sqrt i (st.1.set i (moveBall dt W ball)) := by
        unfold onBody
        rw [h2]
      rw [h3]
      unfold insertBody
      simp only [h2]
    | some ball2 =>
      have h3 : onBody (applyStorm sqrt dt storm m) i
          (collideAll sqrt i (st.1.set i (moveBall dt W ball)))
          = (collideAll sqrt i (st.1.set i (moveBall dt W ball))).set i
              (applyStorm sqrt dt storm m ball2) := by
        unfold onBody
        rw [h2]
      rw [h3]
      have hlt : i < (collideAll sqrt i (st.1.set i (moveBall dt W ball))).length :=
        (List.getElem?_eq_some_iff.1 h2).1
      have h4 : ((collideAll sqrt i (st.1.set i (moveBall dt W ball))).set i
          (applyStorm sqrt dt storm m ball2))[i]? = some (applyStorm sqrt dt storm m ball2) := by
        rw [List.getElem?_set]
        simp [hlt]
      unfold insertBody
      simp only [h4]

theorem floorPair_updateBalls :
    (updateBalls Rat.sqrt [⟨⟨100, 100⟩, ⟨0, 0⟩⟩, ⟨⟨110, 100⟩, ⟨0, 0⟩⟩] (1 / 10) true (90, 100)
      (800, 110) ⟨GRID_SIZE, []⟩).1
      = [⟨⟨100, 100⟩, ⟨20, -224 / 5⟩⟩, ⟨⟨110, 100⟩, ⟨380, -224 / 5⟩⟩] := by
  have h100 : Rat.sqrt 100 = 10 := sqrt_of_sq 100 10 (by norm_num) (by norm_num)
  have h400 : Rat.sqrt 400 = 20 := sqrt_of_sq 400 20 (by norm_num) (by norm_num)
  have hm0 : moveBall (1 / 10 : ℚ) (800, 110) ⟨⟨100, 100⟩, ⟨0, 0⟩⟩
      = ⟨⟨100, 100⟩, ⟨0, -224 / 5⟩⟩ := by
    simp [moveBall, wallHandling, Vec2.add, Vec2.scale, GRAVITY, BALL_RADIUS]
    norm_num
  have hd0 : collisionDistance Rat.sqrt ⟨⟨100, 100⟩, ⟨0, -224 / 5⟩⟩ ⟨⟨110, 100⟩, ⟨0, 0⟩⟩
      = 10 := by
    simp only [collisionDistance, collisionDelta, Vec2.sub]
    rw [show ((100 : ℚ) - 110) * (100 - 110) + (100 - 100) * (100 - 100) = 100 by norm_num]
    exact h100
  have hrv0 : relativeVelocity Rat.sqrt ⟨⟨100, 100⟩, ⟨0, -224 / 5⟩⟩ ⟨⟨110, 100⟩, ⟨0, 0⟩⟩
      = 0 := by
    simp only [relativeVelocity, collisionNormal, hd0, collisionDelta, Vec2.sub, Vec2.divide]
    norm_num
  have hc0 : handleBallCollision Rat.sqrt ⟨⟨100, 100⟩, ⟨0, -224 / 5⟩⟩ ⟨⟨110, 100⟩, ⟨0, 0⟩⟩
      = (⟨⟨100, 100⟩, ⟨0, -224 / 5⟩⟩, ⟨⟨110, 100⟩, ⟨0, 0⟩⟩) :=
    handleBallCollision_of_separating _ _ _ (le_of_eq hrv0.symm)
  have hsd0 : stormDistance Rat.sqrt (90, 100) ⟨⟨100, 100⟩, ⟨0, -224 / 5⟩⟩ = 10 := by
    simp only [stormDistance, stormDirection, Vec2.sub]
    rw [show ((100 : ℚ) - ((90 : ℤ) : ℚ)) * (100 - ((90 : ℤ) : ℚ))
      + (100 - ((100 : ℤ) : ℚ)) * (100 - ((100 : ℤ) : ℚ)) = 100 by norm_num]
    exact h100
  have hs0 : applyStorm Rat.sqrt (1 / 10) true (90, 100) ⟨⟨100, 100⟩, ⟨0, -224 / 5⟩⟩
      = ⟨⟨100, 100⟩, ⟨200, -224 / 5⟩⟩ := by
    rw [applyStorm_on _ _ _ _ (by rw [hsd0]; norm_num), hsd0]
    simp only [stormDirection, Vec2.sub, Vec2.add, Vec2.scale, Vec2.divide, STORM_FORCE]
    norm_num
  have hm1 : moveBall (1 / 10 : ℚ) (800, 110) ⟨⟨110, 100⟩, ⟨0, 0⟩⟩
      = ⟨⟨110, 100⟩, ⟨0, -224 / 5⟩⟩ := by
    simp [moveBall, wallHandling, Vec2.add, Vec2.scale, GRAVITY, BALL_RADIUS]
    norm_num
  have hd1 : collisionDistance Rat.sqrt ⟨⟨110, 100⟩, ⟨0, -224 / 5⟩⟩
      ⟨⟨100, 100⟩, ⟨200, -224 / 5⟩⟩ = 10 := by
    simp only [collisionDistance, collisionDelta, Vec2.sub]
    rw [show ((110 : ℚ) - 100) * (110 - 100) + (100 - 100) * (100 - 100) = 100 by norm_num]
    exact h100
  have hrv1 : relativeVelocity Rat.sqrt ⟨⟨110, 100⟩, ⟨0, -224 / 5⟩⟩
      ⟨⟨100, 100⟩, ⟨200, -224 / 5⟩⟩ = -200 := by
    simp only [relativeVelocity, collisionNormal, hd1, collisionDelta, Vec2.sub, Vec2.divide]
    norm_num
  have hc1 : handleBallCollision Rat.sqrt ⟨⟨110, 100⟩, ⟨0, -224 / 5⟩⟩
      ⟨⟨100, 100⟩, ⟨200, -224 / 5⟩⟩
      = (⟨⟨110, 100⟩, ⟨180, -224 / 5⟩⟩, ⟨⟨100, 100⟩, ⟨20, -224 / 5⟩⟩) := by
    rw [handleBallCollision_of_impulse _ _ _ (by rw [hd1]; norm_num [BALL_RADIUS])
      (by rw [hrv1]; norm_num), hrv1]
    simp only [collisionNormal, hd1, collisionDelta, Vec2.sub, Vec2.add, Vec2.scale, Vec2.divide,
      BALL_DENSITY]
    norm_num
  have hsd1 : stormDistance Rat.sqrt (90, 100) ⟨⟨110, 100⟩, ⟨180, -224 / 5⟩⟩ = 20 := by
    simp only [stormDistance, stormDirection, Vec2.sub]
    rw [show ((110 : ℚ) - ((90 : ℤ) : ℚ)) * (110 - ((90 : ℤ) : ℚ))
      + (100 - ((100 : ℤ) : ℚ)) * (100 - ((100 : ℤ) : ℚ)) = 400 by norm_num]
    exact h400
  have hs1 : applyStorm Rat.sqrt (1 / 10) true (90, 100) ⟨⟨110, 100⟩, ⟨180, -224 / 5⟩⟩
      = ⟨⟨110, 100⟩, ⟨380, -224 / 5⟩⟩ := by
    rw [applyStorm_on _ _ _ _ (by rw [hsd1]; norm_num), hsd1]
    simp only [stormDirection, Vec2.sub, Vec2.add, Vec2.scale, Vec2.divide, STORM_FORCE]
    norm_num
  simp only [updateBalls_pair, hm0, hc0, hs0, hm1, hc1, hs1]

theorem floorPair_referenceStep :
    (referenceStep Rat.sqrt [⟨⟨100, 100⟩, ⟨0, 0⟩⟩, ⟨⟨110, 100⟩, ⟨0, 0⟩⟩] (1 / 10) true
      (90, 100) (800, 110) ⟨GRID_SIZE, []⟩).1
      = [⟨⟨100, 100⟩, ⟨20, -224 / 5⟩⟩, ⟨⟨128, 100⟩, ⟨380, -224 / 5⟩⟩] := by
  have h100 : Rat.sqrt 100 = 10 := sqrt_of_sq 100 10 (by norm_num) (by norm_num)
  have h28 : Rat.sqrt 784 = 28 := sqrt_of_sq 784 28 (by norm_num) (by norm_num)
  have h38 : Rat.sqrt 1444 = 38 := sqrt_of_sq 1444 38 (by norm_num) (by norm_num)
  have hm0 : moveBall (1 / 10 : ℚ) (800, 110) ⟨⟨100, 100⟩, ⟨0, 0⟩⟩
      = ⟨⟨100, 100⟩, ⟨0, -224 / 5⟩⟩ := by
    simp [moveBall, wallHandling, Vec2.add, Vec2.scale, GRAVITY, BALL_RADIUS]
    norm_num
  have hsd0 : stormDistance Rat.sqrt (90, 100) ⟨⟨100, 100⟩, ⟨0, -224 / 5⟩⟩ = 10 := by
    simp only [stormDistance, stormDirection, Vec2.sub]
    rw [show ((100 : ℚ) - ((90 : ℤ) : ℚ)) * (100 - ((90 : ℤ) : ℚ))
      + (100 - ((100 : ℤ) : ℚ)) * (100 - ((100 : ℤ) : ℚ)) = 100 by norm_num]
    exact h100
  have hs0 : applyStorm Rat.sqrt (1 / 10) true (90, 100) ⟨⟨100, 100⟩, ⟨0, -224 / 5⟩⟩
      = ⟨⟨100, 100⟩, ⟨200, -224 / 5⟩⟩ := by
    rw [applyStorm_on _ _ _ _ (by rw [hsd0]; norm_num), hsd0]
    simp only [stormDirection, Vec2.sub, Vec2.add, Vec2.scale, Vec2.divide, STORM_FORCE]
    norm_num
  have hd0 : collisionDistance Rat.sqrt ⟨⟨100, 100⟩, ⟨200, -224 / 5⟩⟩ ⟨⟨110, 100⟩, ⟨0, 0⟩⟩
      = 10 := by
    simp only [collisionDistance, collisionDelta, Vec2.sub]
    rw [show ((100 : ℚ) - 110) * (100 - 110) + (100 - 100) * (100 - 100) = 100 by norm_num]
    exact h100
  have hrv0 : relativeVelocity Rat.sqrt ⟨⟨100, 100⟩, ⟨200, -224 / 5⟩⟩ ⟨⟨110, 100⟩, ⟨0, 0⟩⟩
      = -200 := by
    simp only [relativeVelocity, collisionNormal, hd0, collisionDelta, Vec2.sub, Vec2.divide]
    norm_num
  have hc0 : handleBallCollision Rat.sqrt ⟨⟨100, 100⟩, ⟨200, -224 / 5⟩⟩ ⟨⟨110, 100⟩, ⟨0, 0⟩⟩
      = (⟨⟨100, 100⟩, ⟨20, -224 / 5⟩⟩, ⟨⟨110, 100⟩, ⟨180, 0⟩⟩) := by
    rw [handleBallCollision_of_impulse _ _ _ (by rw [hd0]; norm_num [BALL_RADIUS])
      (by rw [hrv0]; norm_num), hrv0]
    simp only [collisionNormal, hd0, collisionDelta, Vec2.sub, Vec2.add, Vec2.scale, Vec2.divide,
      BALL_DENSITY]
    norm_num
  have hm1 : moveBall (1 / 10 : ℚ) (800, 110) ⟨⟨110, 100⟩, ⟨180, 0⟩⟩
      = ⟨⟨128, 100⟩, ⟨180, -224 / 5⟩⟩ := by
    simp [moveBall, wallHandling, Vec2.add, Vec2.scale, GRAVITY, BALL_RADIUS]
    norm_num
  have hsd1 : stormDistance Rat.sqrt (90, 100) ⟨⟨128, 100⟩, ⟨180, -224 / 5⟩⟩ = 38 := by
    simp only [stormDistance, stormDirection, Vec2.sub]
    rw [show ((128 : ℚ) - ((90 : ℤ) : ℚ)) * (128 - ((90 : ℤ) : ℚ))
      + (100 - ((100 : ℤ) : ℚ)) * (100 - ((100 : ℤ) : ℚ)) = 1444 by norm_num]
    exact h38
  have hs1 : applyStorm Rat.sqrt (1 / 10) true (90, 100) ⟨⟨128, 100⟩, ⟨180, -224 / 5⟩⟩
      = ⟨⟨128, 100⟩, ⟨380, -224 / 5⟩⟩ := by
    rw [applyStorm_on _ _ _ _ (by rw [hsd1]; norm_num), hsd1]
    simp only [stormDirection, Vec2.sub, Vec2.add, Vec2.scale, Vec2.divide, STORM_FORCE]
    norm_num
  have hd1 : collisionDistance Rat.sqrt ⟨⟨128, 100⟩, ⟨380, -224 / 5⟩⟩
      ⟨⟨100, 100⟩, ⟨20, -224 / 5⟩⟩ = 28 := by
    simp only [collisionDistance, collisionDelta, Vec2.sub]
    rw [show ((128 : ℚ) - 100) * (128 - 100) + (100 - 100) * (100 - 100) = 784 by norm_num]
    exact h28
  have hc1 : handleBallCollision Rat.sqrt ⟨⟨128, 100⟩, ⟨380, -224 / 5⟩⟩
      ⟨⟨100, 100⟩, ⟨20, -224 / 5⟩⟩
      = (⟨⟨128, 100⟩, ⟨380, -224 / 5⟩⟩, ⟨⟨100, 100⟩, ⟨20, -224 / 5⟩⟩) :=
    handleBallCollision_of_far _ _ _ (by rw [hd1]; norm_num [BALL_RADIUS])
  simp only [referenceStep_pair, hm0, hs0, hc0, hm1, hs1, hc1]

/-- C8, counterexample: two balls on the floor line of an 800 by 110
viewport, at (100, 100) and (110, 100), the pointer at (90, 100), storm
active, a step of a tenth of a second.  In the code the first ball meets the
second before the storm has pushed it, so no impulse is exchanged in its turn
and the second ball stays at (110, 100); in the reference step the storm
velocity is already there, the impulse gives the second ball the horizontal
velocity 180 before its own move, which takes it to (128, 100). -/
theorem updateBalls_differs_from_referenceStep :
    updateBalls Rat.sqrt [⟨⟨100, 100⟩, ⟨0, 0⟩⟩, ⟨⟨110, 100⟩, ⟨0, 0⟩⟩] (1 / 10) true (90, 100)
        (800, 110) ⟨GRID_SIZE, []⟩
      ≠ referenceStep Rat.sqrt [⟨⟨100, 100⟩, ⟨0, 0⟩⟩, ⟨⟨110, 100⟩, ⟨0, 0⟩⟩] (1 / 10) true
        (90, 100) (800, 110) ⟨GRID_SIZE, []⟩ := by
  intro heq
  have hcode := floorPair_updateBalls
  rw [heq, floorPair_referenceStep] at hcode
  simp at hcode

/-- C8, amended: `updateBalls` equals the reference step that, for each body
in collection order, runs gravity, movement and wall handling, then resolves
that body's collisions against every other body, then adds the storm force,
and only then inserts the body into the partition; with the storm inactive
this is the reference step of the specification. -/
theorem updateBalls_eq_referenceStepCollideFirst (sqrt : ℚ → ℚ) (balls : List (Ball ℚ))
    (deltaTime : ℚ) (stormActive : Bool) (mousePosition : ℤ × ℤ) (windowSize : ℕ × ℕ)
    (partition : SpatialPartition ℚ) :
    updateBalls sqrt balls deltaTime stormActive mousePosition windowSize partition
      = referenceStepCollideFirst sqrt balls deltaTime stormActive mousePosition windowSize
          partition ∧
    updateBalls sqrt balls deltaTime false mousePosition windowSize partition
      = referenceStep sqrt balls deltaTime false mousePosition windowSize partition := by
  constructor
  · unfold updateBalls referenceStepCollideFirst
    congr 1
    funext st i
    exact updateBall_eq_phases sqrt deltaTime stormActive mousePosition windowSize st i
  · unfold updateBalls referenceStep
    congr 1
    funext st i
    rw [updateBall_eq_phases]
    have hid : ∀ b, applyStorm sqrt deltaTime false mousePosition b = b := fun b => rfl
    rw [onBody_id _ hid]
    have hspec : specIntegrator sqrt deltaTime false mousePosition windowSize
        = moveBall deltaTime windowSize := by
      funext b
      rfl
    rw [hspec]


/-! ## C10: negative elapsed time -/

/-- C10, counterexample: a ball at rest at (100, 100) in a 1000 by 1000
viewport, stepped with `deltaTime = -1`, ends at (100, 660) with velocity
(0, -560): neither the unchanged ball nor the result of `deltaTime = 0`,
which is the unchanged ball. -/
theorem updateBalls_negative_deltaTime_not_rejected :
    (updateBalls Rat.sqrt [⟨⟨100, 100⟩, ⟨0, 0⟩⟩] (-1) false (0, 0) (1000, 1000) ⟨GRID_SIZE, []⟩).1
        = [⟨⟨100, 660⟩, ⟨0, -560⟩⟩] ∧
      (updateBalls Rat.sqrt [⟨⟨100, 100⟩, ⟨0, 0⟩⟩] (-1) false (0, 0) (1000, 1000)
          ⟨GRID_SIZE, []⟩).1 ≠ [⟨⟨100, 100⟩, ⟨0, 0⟩⟩] ∧
      (updateBalls Rat.sqrt [⟨⟨100, 100⟩, ⟨0, 0⟩⟩] (-1) false (0, 0) (1000, 1000)
          ⟨GRID_SIZE, []⟩).1
        ≠ (updateBalls Rat.sqrt [⟨⟨100, 100⟩, ⟨0, 0⟩⟩] 0 false (0, 0) (1000, 1000)
          ⟨GRID_SIZE, []⟩).1 := by
  have hneg : (updateBalls Rat.sqrt [⟨⟨100, 100⟩, ⟨0, 0⟩⟩] (-1) false (0, 0) (1000, 1000)
      ⟨GRID_SIZE, []⟩).1 = [⟨⟨100, 660⟩, ⟨0, -560⟩⟩] := by
    simp [updateBalls_single, applyStorm, moveBall, wallHandling, Vec2.add, Vec2.scale, GRAVITY,
      BALL_RADIUS]
    norm_num
  have hzero : (updateBalls Rat.sqrt [⟨⟨100, 100⟩, ⟨0, 0⟩⟩] 0 false (0, 0) (1000, 1000)
      ⟨GRID_SIZE, []⟩).1 = [⟨⟨100, 100⟩, ⟨0, 0⟩⟩] := by
    simp [updateBalls_single, applyStorm, moveBall, wallHandling, Vec2.add, Vec2.scale, GRAVITY,
      BALL_RADIUS]
    norm_num
  refine ⟨hneg, ?_, ?_⟩
  · rw [hneg]
    simp
  · rw [hneg, hzero]
    simp

/-- C10, amended: `updateBalls` uses a negative `deltaTime` as it uses any
other value.  For a single body, storm inactive, whose tentative position
`position + (velocity + (0, 560 * deltaTime)) * deltaTime` touches no wall,
the step with `deltaTime < 0` ends at that tentative position with velocity
`velocity + (0, 560 * deltaTime)`, which is not the unchanged body. -/
theorem updateBalls_negative_deltaTime_integrated (sqrt : ℚ → ℚ) (b : Ball ℚ) (deltaTime : ℚ)
    (mousePosition : ℤ × ℤ) (W H : ℕ) (partition : SpatialPartition ℚ)
    (hneg : deltaTime < 0)
    (hleft : 0 ≤ b.position.x + b.velocity.x * deltaTime - BALL_RADIUS)
    (hright : b.position.x + b.velocity.x * deltaTime + BALL_RADIUS ≤ (W : ℚ))
    (htop : 0 ≤ b.position.y + (b.velocity.y + GRAVITY * deltaTime) * deltaTime - BALL_RADIUS)
    (hbottom : b.position.y + (b.velocity.y + GRAVITY * deltaTime) * deltaTime + BALL_RADIUS
      ≤ (H : ℚ)) :
    (updateBalls sqrt [b] deltaTime false mousePosition (W, H) partition).1
        = [⟨⟨b.position.x + b.velocity.x * deltaTime,
              b.position.y + (b.velocity.y + GRAVITY * deltaTime) * deltaTime⟩,
            ⟨b.velocity.x, b.velocity.y + GRAVITY * deltaTime⟩⟩] ∧
      (updateBalls sqrt [b] deltaTime false mousePosition (W, H) partition).1 ≠ [b] := by
  have hval : (updateBalls sqrt [b] deltaTime false mousePosition (W, H) partition).1
      = [⟨⟨b.position.x + b.velocity.x * deltaTime,
            b.position.y + (b.velocity.y + GRAVITY * deltaTime) * deltaTime⟩,
          ⟨b.velocity.x, b.velocity.y + GRAVITY * deltaTime⟩⟩] := by
    rw [updateBalls_single]
    simp only [applyStorm, Bool.false_eq_true, if_false, moveBall, wallHandling, Vec2.add,
      Vec2.scale, decide_eq_true_eq, gt_iff_lt]
    rw [if_neg (not_lt.2 htop), if_neg (not_lt.2 htop), if_neg (not_lt.2 hbottom),
      if_neg (not_lt.2 hbottom), if_neg (not_lt.2 hleft), if_neg (not_lt.2 hleft),
      if_neg (not_lt.2 hright), if_neg (not_lt.2 hright)]
  refine ⟨hval, ?_⟩
  rw [hval]
  intro heq
  have hb := congrArg (fun l => (l.map (fun c => c.velocity.y)).sum) heq
  simp only [List.map_cons, List.map_nil, List.sum_cons, List.sum_nil, add_zero] at hb
  have hg : GRAVITY * deltaTime < 0 := by
    unfold GRAVITY
    linarith
  linarith

/-- C10, witness: the ball of the counterexample, stepped with
`deltaTime = -1`. -/
theorem updateBalls_negative_deltaTime_integrated_witness :
    (updateBalls Rat.sqrt [⟨⟨100, 100⟩, ⟨0, 0⟩⟩] (-1) false (0, 0) (1000, 1000) ⟨GRID_SIZE, []⟩).1
      ≠ [⟨⟨100, 100⟩, ⟨0, 0⟩⟩] :=
  (updateBalls_negative_deltaTime_integrated Rat.sqrt ⟨⟨100, 100⟩, ⟨0, 0⟩⟩ (-1) (0, 0) 1000 1000
    ⟨GRID_SIZE, []⟩ (by norm_num) (by norm_num [BALL_RADIUS]) (by norm_num [BALL_RADIUS])
    (by norm_num [BALL_RADIUS, GRAVITY]) (by norm_num [BALL_RADIUS, GRAVITY])).2


/-! ## Algebra of the collision response -/

theorem collisionDistance_swap (sqrt : F → F) (a b : Ball F) :
    collisionDistance sqrt b a = collisionDistance sqrt a b := by
  simp only [collisionDistance, collisionDelta, Vec2.sub]
  congr 1
  ring

theorem collisionNormal_swap (sqrt : F → F) (a b : Ball F) :
    collisionNormal sqrt b a = (collisionNormal sqrt a b).scale (-1) := by
  simp only [collisionNormal, collisionDistance_swap sqrt a b]
  simp only [collisionDelta, Vec2.sub, Vec2.divide, Vec2.scale]
  congr 1 <;> ring

theorem relativeVelocity_swap (sqrt : F → F) (a b : Ball F) :
    relativeVelocity sqrt b a = relativeVelocity sqrt a b := by
  simp only [relativeVelocity, collisionNormal_swap sqrt a b]
  simp only [Vec2.sub, Vec2.scale]
  ring

/-- Exchanging the two arguments exchanges the two results. -/
theorem handleBallCollision_swap (sqrt : F → F) (a b : Ball F) :
    handleBallCollision sqrt b a
      = ((handleBallCollision sqrt a b).2, (handleBallCollision sqrt a b).1) := by
  simp only [handleBallCollision, collisionDistance_swap sqrt a b, relativeVelocity_swap sqrt a b,
    collisionNormal_swap sqrt a b]
  split_ifs
  · simp only [Vec2.sub, Vec2.add, Vec2.scale]
    congr 2
    · congr 1 <;> ring
    · congr 1 <;> ring
  · rfl
  · rfl

/-- After a call with an exact square root at distinct centers the projected
relative velocity is not negative. -/
theorem relativeVelocity_after_nonneg (sqrt : F → F) (ball1 ball2 : Ball F)
    (hne : ball1.position ≠ ball2.position)
    (hexact : collisionDistance sqrt ball1 ball2 * collisionDistance sqrt ball1 ball2
      = (collisionDelta ball1 ball2).x * (collisionDelta ball1 ball2).x
        + (collisionDelta ball1 ball2).y * (collisionDelta ball1 ball2).y) :
    collisionDistance sqrt (handleBallCollision sqrt ball1 ball2).1
        (handleBallCollision sqrt ball1 ball2).2 = collisionDistance sqrt ball1 ball2 ∧
      (collisionDistance sqrt ball1 ball2 < 2 * BALL_RADIUS →
        0 ≤ relativeVelocity sqrt (handleBallCollision sqrt ball1 ball2).1
          (handleBallCollision sqrt ball1 ball2).2) := by
  have hpos := handleBallCollision_position sqrt ball1 ball2
  have hdist : collisionDistance sqrt (handleBallCollision sqrt ball1 ball2).1
      (handleBallCollision sqrt ball1 ball2).2 = collisionDistance sqrt ball1 ball2 := by
    simp only [collisionDistance, collisionDelta, hpos.1, hpos.2]
  refine ⟨hdist, fun hlt => ?_⟩
  have hn := collisionNormal_unit sqrt ball1 ball2 hne hexact
  have hnormal : collisionNormal sqrt (handleBallCollision sqrt ball1 ball2).1
      (handleBallCollision sqrt ball1 ball2).2 = collisionNormal sqrt ball1 ball2 := by
    simp only [collisionNormal, collisionDistance, collisionDelta, hpos.1, hpos.2]
  by_cases hrv : relativeVelocity sqrt ball1 ball2 < 0
  · have hres : handleBallCollision sqrt ball1 ball2 =
        (⟨ball1.position, ball1.velocity.sub ((collisionNormal sqrt ball1 ball2).scale
            ((1 + 4 / 5) * relativeVelocity sqrt ball1 ball2 / (2 / BALL_DENSITY) / BALL_DENSITY))⟩,
         ⟨ball2.position, ball2.velocity.add ((collisionNormal sqrt ball1 ball2).scale
            ((1 + 4 / 5) * relativeVelocity sqrt ball1 ball2 / (2 / BALL_DENSITY) / BALL_DENSITY))⟩) := by
      simp only [handleBallCollision, if_pos hlt, if_pos hrv]
    have hafter : relativeVelocity sqrt (handleBallCollision sqrt ball1 ball2).1
        (handleBallCollision sqrt ball1 ball2).2 = -(4 / 5) * relativeVelocity sqrt ball1 ball2 := by
      rw [relativeVelocity, hnormal, hres]
      simp only [relativeVelocity, Vec2.sub, Vec2.add, Vec2.scale, BALL_DENSITY] at hn ⊢
      linear_combination
        (-(9 / 5) * ((ball1.velocity.x - ball2.velocity.x) * (collisionNormal sqrt ball1 ball2).x
          + (ball1.velocity.y - ball2.velocity.y) * (collisionNormal sqrt ball1 ball2).y)) * hn
    rw [hafter]
    linarith
  · have hres : handleBallCollision sqrt ball1 ball2 = (ball1, ball2) := by
      simp only [handleBallCollision, if_pos hlt, if_neg hrv]
    rw [hres]
    exact not_lt.1 hrv

/-! ## C11: momentum -/

/-- C11: `handleBallCollision` changes the two velocities by equal and
opposite vectors, so the sum of the two velocities is the same before and
after the call, for all positions and velocities. -/
theorem handleBallCollision_momentum (sqrt : ℚ → ℚ) (ball1 ball2 : Ball ℚ) :
    (handleBallCollision sqrt ball1 ball2).1.velocity.sub ball1.velocity
        = ((handleBallCollision sqrt ball1 ball2).2.velocity.sub ball2.velocity).scale (-1) ∧
      (handleBallCollision sqrt ball1 ball2).1.velocity.add
          (handleBallCollision sqrt ball1 ball2).2.velocity
        = ball1.velocity.add ball2.velocity := by
  simp only [handleBallCollision]
  split_ifs
  · simp only [Vec2.sub, Vec2.add, Vec2.scale]
    constructor
    · congr 1 <;> ring
    · congr 1 <;> ring
  · simp only [Vec2.sub, Vec2.add, Vec2.scale]
    constructor
    · congr 1 <;> ring
    · trivial
  · simp only [Vec2.sub, Vec2.add, Vec2.scale]
    constructor
    · congr 1 <;> ring
    · trivial

/-! ## C19: symmetry in the arguments -/

/-- C19: `handleBallCollision(a, b)` and `handleBallCollision(b, a)` leave
`a` with the same velocity and `b` with the same velocity (and both with
their positions). -/
theorem handleBallCollision_symmetric (sqrt : ℚ → ℚ) (a b : Ball ℚ) :
    (handleBallCollision sqrt b a).2 = (handleBallCollision sqrt a b).1 ∧
      (handleBallCollision sqrt b a).1 = (handleBallCollision sqrt a b).2 ∧
      (handleBallCollision sqrt b a).2.velocity = (handleBallCollision sqrt a b).1.velocity ∧
      (handleBallCollision sqrt b a).1.velocity = (handleBallCollision sqrt a b).2.velocity := by
  rw [handleBallCollision_swap sqrt a b]
  exact ⟨rfl, rfl, rfl, rfl⟩

/-! ## C20: idempotence -/

/-- Idempotence over any ordered field, for a square root that is exact at
the squared distance of the two centers. -/
theorem handleBallCollision_idempotent_of_exact (sqrt : F → F) (ball1 ball2 : Ball F)
    (hne : ball1.position ≠ ball2.position)
    (hexact : collisionDistance sqrt ball1 ball2 * collisionDistance sqrt ball1 ball2
      = (collisionDelta ball1 ball2).x * (collisionDelta ball1 ball2).x
        + (collisionDelta ball1 ball2).y * (collisionDelta ball1 ball2).y) :
    handleBallCollision sqrt (handleBallCollision sqrt ball1 ball2).1
        (handleBallCollision sqrt ball1 ball2).2 = handleBallCollision sqrt ball1 ball2 ∧
      handleBallCollision sqrt (handleBallCollision sqrt ball1 ball2).2
        (handleBallCollision sqrt ball1 ball2).1
        = ((handleBallCollision sqrt ball1 ball2).2, (handleBallCollision sqrt ball1 ball2).1) := by
  obtain ⟨hdist, hrv⟩ := relativeVelocity_after_nonneg sqrt ball1 ball2 hne hexact
  have hsame : handleBallCollision sqrt (handleBallCollision sqrt ball1 ball2).1
      (handleBallCollision sqrt ball1 ball2).2 = handleBallCollision sqrt ball1 ball2 := by
    generalize hr : handleBallCollision sqrt ball1 ball2 = r at hdist hrv
    rw [handleBallCollision]
    simp only [hdist]
    split_ifs with h1 h2
    · exact absurd h2 (not_lt.2 (hrv h1))
    · rfl
    · rfl
  refine ⟨hsame, ?_⟩
  rw [handleBallCollision_swap, hsame]

/-- C20: in real arithmetic, for every two bodies with distinct centers, a
second call of `handleBallCollision` on the result of a first one changes
nothing, and neither does the call with the two arguments exchanged, which
is the re-test of the pair in the turn of the other body. -/
theorem handleBallCollision_idempotent (ball1 ball2 : Ball ℝ)
    (hne : ball1.position ≠ ball2.position) :
    handleBallCollision Real.sqrt (handleBallCollision Real.sqrt ball1 ball2).1
        (handleBallCollision Real.sqrt ball1 ball2).2 = handleBallCollision Real.sqrt ball1 ball2 ∧
      handleBallCollision Real.sqrt (handleBallCollision Real.sqrt ball1 ball2).2
        (handleBallCollision Real.sqrt ball1 ball2).1
        = ((handleBallCollision Real.sqrt ball1 ball2).2,
            (handleBallCollision Real.sqrt ball1 ball2).1) :=
  handleBallCollision_idempotent_of_exact Real.sqrt ball1 ball2 hne
    (collisionDistance_real_exact ball1 ball2)

/-- C20, witness: the balls at (100, 100) and (110, 110), at the irrational
distance `√200`, approaching each other: the second call leaves the result
of the first as it is. -/
theorem handleBallCollision_idempotent_witness :
    (⟨⟨100, 100⟩, ⟨1, 1⟩⟩ : Ball ℝ).position ≠ (⟨⟨110, 110⟩, ⟨-1, -1⟩⟩ : Ball ℝ).position ∧
      handleBallCollision Real.sqrt
          (handleBallCollision Real.sqrt ⟨⟨100, 100⟩, ⟨1, 1⟩⟩ ⟨⟨110, 110⟩, ⟨-1, -1⟩⟩).1
          (handleBallCollision Real.sqrt ⟨⟨100, 100⟩, ⟨1, 1⟩⟩ ⟨⟨110, 110⟩, ⟨-1, -1⟩⟩).2
        = handleBallCollision Real.sqrt ⟨⟨100, 100⟩, ⟨1, 1⟩⟩ ⟨⟨110, 110⟩, ⟨-1, -1⟩⟩ :=
  have hne : (⟨⟨100, 100⟩, ⟨1, 1⟩⟩ : Ball ℝ).position
      ≠ (⟨⟨110, 110⟩, ⟨-1, -1⟩⟩ : Ball ℝ).position := by
    simp
  ⟨hne, (handleBallCollision_idempotent ⟨⟨100, 100⟩, ⟨1, 1⟩⟩ ⟨⟨110, 110⟩, ⟨-1, -1⟩⟩ hne).1⟩

/-! ## C13: query of an absent cell -/

theorem find_eq_none_iff (g : Grid) (key : ℤ × ℤ) :
    g.find key = none ↔ ∀ e ∈ g, e.1 ≠ key := by
  induction g with
  | nil => simp [Grid.find]
  | cons e rest ih =>
    obtain ⟨k, bucket⟩ := e
    unfold Grid.find
    split_ifs with hk
    · simp [hk]
    · simp [hk, ih]

theorem find_some_mem (g : Grid) (key : ℤ × ℤ) (bucket : List ℕ)
    (h : g.find key = some bucket) : (key, bucket) ∈ g := by
  induction g with
  | nil => simp [Grid.find] at h
  | cons e rest ih =>
    obtain ⟨k, b⟩ := e
    unfold Grid.find at h
    split_ifs at h with hk
    · have hb : b = bucket := by simpa using h
      subst hk
      subst hb
      exact List.mem_cons_self _ _
    · exact List.mem_cons_of_mem _ (ih h)

theorem find_of_mem_of_nodup (g : Grid) (key : ℤ × ℤ) (bucket : List ℕ)
    (hnd : (g.map Prod.fst).Nodup) (h : (key, bucket) ∈ g) : g.find key = some bucket := by
  induction g with
  | nil => simp at h
  | cons e rest ih =>
    obtain ⟨k, b⟩ := e
    simp only [List.map_cons, List.nodup_cons] at hnd
    unfold Grid.find
    rcases List.mem_cons.1 h with h | h
    · have hk : k = key := (congrArg Prod.fst h).symm
      have hb : b = bucket := (congrArg Prod.snd h).symm
      rw [if_pos hk, hb]
    · have hk : ¬ k = key := by
        intro hk
        apply hnd.1
        rw [hk]
        exact List.mem_map.2 ⟨(key, bucket), h, rfl⟩
      rw [if_neg hk]
      exact ih hnd.2 h

/-- The insertion `grid[key].push_back(ball)` keeps the keys of the map
pairwise distinct. -/
theorem pushBack_keys_nodup (g : Grid) (key : ℤ × ℤ) (ptr : ℕ)
    (hnd : (g.map Prod.fst).Nodup) : ((g.pushBack key ptr).map Prod.fst).Nodup := by
  induction g with
  | nil => simp [Grid.pushBack]
  | cons e rest ih =>
    obtain ⟨k, b⟩ := e
    simp only [List.map_cons, List.nodup_cons] at hnd
    unfold Grid.pushBack
    split_ifs with hk
    · simp only [List.map_cons, List.nodup_cons]
      exact hnd
    · simp only [List.map_cons, List.nodup_cons]
      refine ⟨?_, ih hnd.2⟩
      intro hmem
      obtain ⟨e, he, hek⟩ := List.mem_map.1 hmem
      have hfind : ∀ (g : Grid) (e : (ℤ × ℤ) × List ℕ), e ∈ g.pushBack key ptr →
          e.1 = key ∨ e.1 ∈ g.map Prod.fst := by
        intro g
        induction g with
        | nil =>
          intro e he
          simp only [Grid.pushBack, List.mem_singleton] at he
          left
          rw [he]
        | cons e0 rest0 ih0 =>
          obtain ⟨k0, b0⟩ := e0
          intro e he
          unfold Grid.pushBack at he
          split_ifs at he with hk0
          · rcases List.mem_cons.1 he with he | he
            · left
              rw [he]
              exact hk0
            · right
              exact List.mem_map.2 ⟨e, List.mem_cons_of_mem _ he, rfl⟩
          · rcases List.mem_cons.1 he with he | he
            · right
              rw [he]
              simp
            · rcases ih0 e he with h | h
              · exact Or.inl h
              · right
                simp only [List.map_cons, List.mem_cons]
                exact Or.inr h
      rcases hfind rest e he with h | h
      · exact hk (hek.symm.trans h)
      · rw [hek] at h
        exact hnd.1 h

/-- C13: for every partition and cell coordinate, when the map has an entry
with the key `(x, y)`, `getBallsInCell` returns the bucket of an entry with
that key, which is the bucket stored for the key when the keys of the map
are pairwise distinct; when no entry has the key it returns the empty
sequence; in both cases the partition after the call is the partition
before it, so an absent key is still absent. -/
theorem getBallsInCell_absent_cell {F : Type} (self : SpatialPartition F) (x y : ℤ) :
    ((∃ e ∈ self.grid, e.1 = (x, y)) →
      ∃ bucket, ((x, y), bucket) ∈ self.grid ∧ (self.getBallsInCellCall x y).1 = bucket) ∧
    ((self.grid.map Prod.fst).Nodup → ∀ bucket, ((x, y), bucket) ∈ self.grid →
      (self.getBallsInCellCall x y).1 = bucket) ∧
    ((∀ e ∈ self.grid, e.1 ≠ (x, y)) →
      (self.getBallsInCellCall x y).1 = [] ∧
        (∀ e ∈ (self.getBallsInCellCall x y).2.grid, e.1 ≠ (x, y))) ∧
    (self.getBallsInCellCall x y).2 = self := by
  refine ⟨?_, ?_, ?_, rfl⟩
  · intro hex
    cases hfind : self.grid.find (x, y) with
    | none =>
      exfalso
      obtain ⟨e, he, hek⟩ := hex
      exact (find_eq_none_iff self.grid (x, y)).1 hfind e he hek
    | some bucket =>
      refine ⟨bucket, find_some_mem _ _ _ hfind, ?_⟩
      simp only [SpatialPartition.getBallsInCellCall, SpatialPartition.getBallsInCell, hfind]
  · intro hnd bucket hmem
    have hfind := find_of_mem_of_nodup self.grid (x, y) bucket hnd hmem
    simp only [SpatialPartition.getBallsInCellCall, SpatialPartition.getBallsInCell, hfind]
  · intro h
    have hnone := (find_eq_none_iff self.grid (x, y)).2 h
    constructor
    · simp only [SpatialPartition.getBallsInCellCall, SpatialPartition.getBallsInCell, hnone]
    · exact h

/-- C13, witness: a partition with the buckets (2, 2) and (3, 1), queried at
the present cell (3, 1), which returns its bucket, and at the absent cell
(0, 0), which returns the empty sequence and creates no entry. -/
theorem getBallsInCell_absent_cell_witness :
    ((([((2, 2), [0, 2]), ((3, 1), [1])] : Grid).map Prod.fst).Nodup ∧
        ((3, 1), [1]) ∈ ([((2, 2), [0, 2]), ((3, 1), [1])] : Grid) ∧
        (SpatialPartition.getBallsInCellCall
          (⟨GRID_SIZE, [((2, 2), [0, 2]), ((3, 1), [1])]⟩ : SpatialPartition ℚ) 3 1).1 = [1]) ∧
      ((∀ e ∈ ([((2, 2), [0, 2]), ((3, 1), [1])] : Grid), e.1 ≠ (0, 0)) ∧
        (SpatialPartition.getBallsInCellCall
          (⟨GRID_SIZE, [((2, 2), [0, 2]), ((3, 1), [1])]⟩ : SpatialPartition ℚ) 0 0).1 = []) :=
  have hnd : (([((2, 2), [0, 2]), ((3, 1), [1])] : Grid).map Prod.fst).Nodup := by decide
  have hmem : ((3, 1), [1]) ∈ ([((2, 2), [0, 2]), ((3, 1), [1])] : Grid) := by decide
  have habs : ∀ e ∈ ([((2, 2), [0, 2]), ((3, 1), [1])] : Grid), e.1 ≠ (0, 0) := by decide
  ⟨⟨hnd, hmem,
      (getBallsInCell_absent_cell
        (⟨GRID_SIZE, [((2, 2), [0, 2]), ((3, 1), [1])]⟩ : SpatialPartition ℚ) 3 1).2.1 hnd [1]
        hmem⟩,
    habs,
    ((getBallsInCell_absent_cell
        (⟨GRID_SIZE, [((2, 2), [0, 2]), ((3, 1), [1])]⟩ : SpatialPartition ℚ) 0 0).2.2.1
        habs).1⟩

/-! ## C14: storm at the pointer -/

/-- C14: with the storm active and `sqrt 0 = 0`, for a ball whose position
is the pointer the storm block executes no division and returns the ball
unchanged; for a single body whose position after movement and wall handling
is the pointer, the step with the storm active gives the result of the step
with the storm inactive. -/
theorem applyStorm_at_pointer (sqrt : ℚ → ℚ) (hsqrt : sqrt 0 = 0) (deltaTime : ℚ)
    (mousePosition : ℤ × ℤ) :
    (∀ ball : Ball ℚ, ball.position = ⟨(mousePosition.1 : ℚ), (mousePosition.2 : ℚ)⟩ →
      applyStormDivisors sqrt true mousePosition ball = [] ∧
        applyStorm sqrt deltaTime true mousePosition ball = ball) ∧
    (∀ (b bOff : Ball ℚ) (windowSize : ℕ × ℕ) (partition : SpatialPartition ℚ),
      (updateBalls sqrt [b] deltaTime false mousePosition windowSize partition).1 = [bOff] →
      bOff.position = ⟨(mousePosition.1 : ℚ), (mousePosition.2 : ℚ)⟩ →
      updateBalls sqrt [b] deltaTime true mousePosition windowSize partition
        = updateBalls sqrt [b] deltaTime false mousePosition windowSize partition) := by
  have hdist : ∀ ball : Ball ℚ,
      ball.position = ⟨(mousePosition.1 : ℚ), (mousePosition.2 : ℚ)⟩ →
      stormDistance sqrt mousePosition ball = 0 := by
    intro ball hpos
    simp only [stormDistance, stormDirection, Vec2.sub, hpos, sub_self, mul_zero, add_zero]
    exact hsqrt
  have hskip : ∀ ball : Ball ℚ,
      ball.position = ⟨(mousePosition.1 : ℚ), (mousePosition.2 : ℚ)⟩ →
      applyStorm sqrt deltaTime true mousePosition ball = ball := by
    intro ball hpos
    simp only [applyStorm, hdist ball hpos, gt_iff_lt, lt_self_iff_false, if_false, if_true]
  refine ⟨fun ball hpos => ⟨?_, hskip ball hpos⟩, ?_⟩
  · simp only [applyStormDivisors, hdist ball hpos, gt_iff_lt, lt_self_iff_false, if_false,
      if_true]
  · intro b bOff windowSize partition hoff hpos
    rw [updateBalls_single] at hoff
    have hmove : moveBall deltaTime windowSize b = bOff := by
      simpa [applyStorm] using hoff
    have hfalse : applyStorm sqrt deltaTime false mousePosition (moveBall deltaTime windowSize b)
        = moveBall deltaTime windowSize b := rfl
    rw [updateBalls_single, updateBalls_single, hfalse, hmove, hskip bOff hpos]

/-- C14, witness: a ball at the pointer (100, 100). -/
theorem applyStorm_at_pointer_witness :
    Rat.sqrt 0 = 0 ∧
      applyStormDivisors Rat.sqrt true (100, 100) ⟨⟨100, 100⟩, ⟨3, 4⟩⟩ = [] ∧
      applyStorm Rat.sqrt 1 true (100, 100) ⟨⟨100, 100⟩, ⟨3, 4⟩⟩ = ⟨⟨100, 100⟩, ⟨3, 4⟩⟩ :=
  have h0 : Rat.sqrt 0 = 0 := sqrt_of_sq 0 0 (by norm_num) (le_refl 0)
  ⟨h0, (applyStorm_at_pointer Rat.sqrt h0 1 (100, 100)).1 ⟨⟨100, 100⟩, ⟨3, 4⟩⟩ (by norm_num)⟩


/-! ## C15: wall handling per axis -/

/-- C15: the position and the velocity factor that wall handling produces
on each axis are functions of the tentative coordinate and the extent of
that axis alone; for `W, H ≥ 20`, a tentative position that crosses one
vertical and one horizontal wall is clamped on both axes to the boundary
offset by 10 and both velocity components are multiplied by `-0.8`, which is
what `updateBalls` leaves in a body alone in the collection with the storm
inactive. -/
theorem wallHandling_per_axis (sqrt : ℚ → ℚ) (b : Ball ℚ) (deltaTime : ℚ) (mousePosition : ℤ × ℤ)
    (W H : ℕ) (partition : SpatialPartition ℚ) :
    (∃ posX facX posY facY : ℕ → ℚ → ℚ, ∀ (W' H' : ℕ) (p v : Vec2 ℚ),
      wallHandling (W', H') p v
        = (⟨posX W' p.x, posY H' p.y⟩, ⟨v.x * facX W' p.x, v.y * facY H' p.y⟩)) ∧
    (20 ≤ W → 20 ≤ H →
      ((tentativePosition deltaTime b).x - BALL_RADIUS < 0 ∨
        (tentativePosition deltaTime b).x + BALL_RADIUS > (W : ℚ)) →
      ((tentativePosition deltaTime b).y - BALL_RADIUS < 0 ∨
        (tentativePosition deltaTime b).y + BALL_RADIUS > (H : ℚ)) →
      (updateBalls sqrt [b] deltaTime false mousePosition (W, H) partition).1
          = [moveBall deltaTime (W, H) b] ∧
        (moveBall deltaTime (W, H) b).position.x
          = (if (tentativePosition deltaTime b).x - BALL_RADIUS < 0 then BALL_RADIUS
              else (W : ℚ) - BALL_RADIUS) ∧
        (moveBall deltaTime (W, H) b).position.y
          = (if (tentativePosition deltaTime b).y - BALL_RADIUS < 0 then BALL_RADIUS
              else (H : ℚ) - BALL_RADIUS) ∧
        (moveBall deltaTime (W, H) b).velocity.x = b.velocity.x * (-4 / 5) ∧
        (moveBall deltaTime (W, H) b).velocity.y
          = (b.velocity.y + GRAVITY * deltaTime) * (-4 / 5)) := by
  constructor
  · refine ⟨fun W' x => if (if x - BALL_RADIUS < 0 then BALL_RADIUS else x) + BALL_RADIUS > (W' : ℚ)
        then (W' : ℚ) - BALL_RADIUS else (if x - BALL_RADIUS < 0 then BALL_RADIUS else x),
      fun W' x => (if x - BALL_RADIUS < 0 then (-4 / 5 : ℚ) else 1)
        * (if (if x - BALL_RADIUS < 0 then BALL_RADIUS else x) + BALL_RADIUS > (W' : ℚ)
            then (-4 / 5 : ℚ) else 1),
      fun H' y => if (if y - BALL_RADIUS < 0 then BALL_RADIUS else y) + BALL_RADIUS > (H' : ℚ)
        then (H' : ℚ) - BALL_RADIUS else (if y - BALL_RADIUS < 0 then BALL_RADIUS else y),
      fun H' y => (if y - BALL_RADIUS < 0 then (-4 / 5 : ℚ) else 1)
        * (if (if y - BALL_RADIUS < 0 then BALL_RADIUS else y) + BALL_RADIUS > (H' : ℚ)
            then (-4 / 5 : ℚ) else 1), ?_⟩
    intro W' H' p v
    simp only [wallHandling, decide_eq_true_eq, Prod.mk.injEq, Vec2.mk.injEq]
    refine ⟨trivial, ?_, ?_⟩
    · split_ifs <;> ring
    · split_ifs <;> ring
  · intro hW hH hx hy
    have hW2 : (20 : ℚ) ≤ (W : ℚ) := by exact_mod_cast hW
    have hH2 : (20 : ℚ) ≤ (H : ℚ) := by exact_mod_cast hH
    refine ⟨?_, ?_, ?_, ?_, ?_⟩
    · rw [updateBalls_single]
      rfl
    · simp only [moveBall, wallHandling, tentativePosition, Vec2.add, Vec2.scale, BALL_RADIUS,
        decide_eq_true_eq] at hx ⊢
      split_ifs at hx ⊢ <;> first | rfl | (exfalso; rcases hx with h | h <;> linarith)
    · simp only [moveBall, wallHandling, tentativePosition, Vec2.add, Vec2.scale, BALL_RADIUS,
        decide_eq_true_eq] at hy ⊢
      split_ifs at hy ⊢ <;> first | rfl | (exfalso; rcases hy with h | h <;> linarith)
    · simp only [moveBall, wallHandling, tentativePosition, Vec2.add, Vec2.scale, BALL_RADIUS,
        decide_eq_true_eq] at hx ⊢
      split_ifs at hx ⊢ <;> first | rfl | (exfalso; rcases hx with h | h <;> linarith)
    · simp only [moveBall, wallHandling, tentativePosition, Vec2.add, Vec2.scale, BALL_RADIUS,
        decide_eq_true_eq] at hy ⊢
      split_ifs at hy ⊢ <;> first | rfl | (exfalso; rcases hy with h | h <;> linarith)

/-- C15, witness: in an 800 by 600 viewport a ball at (795, 595) with
velocity (5, 0) crosses the right wall and the floor in a step of zero
length: it is put at (790, 590) with velocity (-4, 0). -/
theorem wallHandling_per_axis_witness :
    20 ≤ 800 ∧ 20 ≤ 600 ∧
      (updateBalls Rat.sqrt [⟨⟨795, 595⟩, ⟨5, 0⟩⟩] 0 false (0, 0) (800, 600) ⟨GRID_SIZE, []⟩).1
        = [moveBall (0 : ℚ) (800, 600) ⟨⟨795, 595⟩, ⟨5, 0⟩⟩] ∧
      (moveBall (0 : ℚ) (800, 600) ⟨⟨795, 595⟩, ⟨5, 0⟩⟩).velocity.x = 5 * (-4 / 5) :=
  have h := (wallHandling_per_axis Rat.sqrt ⟨⟨795, 595⟩, ⟨5, 0⟩⟩ 0 (0, 0) 800 600
    ⟨GRID_SIZE, []⟩).2 (by norm_num) (by norm_num)
    (Or.inr (by norm_num [tentativePosition, Vec2.add, Vec2.scale, BALL_RADIUS]))
    (Or.inr (by norm_num [tentativePosition, Vec2.add, Vec2.scale, BALL_RADIUS]))
  ⟨by norm_num, by norm_num, h.1, h.2.2.2.1⟩

/-! ## C16: no positional correction -/

/-- What one iteration of the outer loop does to a ball that exists: the
ball left at its index has the position computed by movement and wall
handling, it is the ball inserted into the partition, and no other position
of the collection is written. -/
theorem updateBall_spec (sqrt : ℚ → ℚ) (dt : ℚ) (storm : Bool) (m : ℤ × ℤ) (W : ℕ × ℕ)
    (st : List (Ball ℚ) × SpatialPartition ℚ) (i : ℕ) (ball : Ball ℚ) (hi : st.1[i]? = some ball) :
    ∃ b3, (updateBall sqrt dt storm m W st i).1[i]? = some b3 ∧
      b3.position = (moveBall dt W ball).position ∧
      (updateBall sqrt dt storm m W st i).2 = st.2.addBall i b3 ∧
      (updateBall sqrt dt storm m W st i).1.map Ball.position
        = (st.1.map Ball.position).set i (moveBall dt W ball).position := by
  have hlt : i < st.1.length := (List.getElem?_eq_some_iff.1 hi).1
  have hpos := collideAll_positions sqrt i (st.1.set i (moveBall dt W ball))
  have hlen : i < (collideAll sqrt i (st.1.set i (moveBall dt W ball))).length := by
    rw [collideAll_length, List.length_set]
    exact hlt
  obtain ⟨ball2, h2⟩ : ∃ ball2, (collideAll sqrt i (st.1.set i (moveBall dt W ball)))[i]?
      = some ball2 := ⟨_, List.getElem?_eq_getElem hlen⟩
  have hp2 : ball2.position = (moveBall dt W ball).position := by
    have h3 := congrArg (fun l => l[i]?) hpos
    simp only [List.getElem?_map, h2, List.getElem?_set, hlt, if_true, Option.map_some'] at h3
    simpa using h3
  have hupd : updateBall sqrt dt storm m W st i
      = ((collideAll sqrt i (st.1.set i (moveBall dt W ball))).set i (applyStorm sqrt dt storm m ball2),
         st.2.addBall i (applyStorm sqrt dt storm m ball2)) := by
    unfold updateBall
    simp only [hi, h2]
  refine ⟨applyStorm sqrt dt storm m ball2, ?_, ?_, ?_, ?_⟩
  · rw [hupd, List.getElem?_set]
    simp [hlen]
  · rw [applyStorm_position, hp2]
  · rw [hupd]
  · rw [hupd]
    simp only
    rw [map_set_same Ball.position _ i ball2 _ h2 (applyStorm_position sqrt dt storm m ball2),
      hpos, List.map_set]

/-- C16: `handleBallCollision` returns both balls with the positions they
had; the collision loop of any body leaves every position of the collection
as it was; one iteration of the outer loop of `updateBalls` writes the
position of its own body, computed by movement and wall handling, and no
other position. -/
theorem no_positional_correction (sqrt : ℚ → ℚ) :
    (∀ ball1 ball2 : Ball ℚ,
      (handleBallCollision sqrt ball1 ball2).1.position = ball1.position ∧
        (handleBallCollision sqrt ball1 ball2).2.position = ball2.position) ∧
    (∀ (i : ℕ) (balls : List (Ball ℚ)),
      (collideAll sqrt i balls).map Ball.position = balls.map Ball.position) ∧
    (∀ (deltaTime : ℚ) (stormActive : Bool) (mousePosition : ℤ × ℤ) (windowSize : ℕ × ℕ)
      (st : List (Ball ℚ) × SpatialPartition ℚ) (i : ℕ) (ball : Ball ℚ), st.1[i]? = some ball →
      (updateBall sqrt deltaTime stormActive mousePosition windowSize st i).1.map Ball.position
        = (st.1.map Ball.position).set i (moveBall deltaTime windowSize ball).position) :=
  ⟨fun ball1 ball2 => handleBallCollision_position sqrt ball1 ball2,
    fun i balls => collideAll_positions sqrt i balls,
    fun dt storm m W st i ball hi =>
      match updateBall_spec sqrt dt storm m W st i ball hi with
      | ⟨_, _, _, _, h⟩ => h⟩

/-- C16, witness: the first iteration on the two approaching balls at
(100, 100) and (106, 108), with a step of zero length: the impulse is
exchanged and both positions stay. -/
theorem no_positional_correction_witness :
    ([headOnLeft, headOnRight], (⟨GRID_SIZE, []⟩ : SpatialPartition ℚ)).1[0]? = some headOnLeft ∧
      (updateBall Rat.sqrt 0 false (0, 0) (800, 600)
          ([headOnLeft, headOnRight], ⟨GRID_SIZE, []⟩) 0).1.map Ball.position
        = (([headOnLeft, headOnRight], (⟨GRID_SIZE, []⟩ : SpatialPartition ℚ)).1.map
            Ball.position).set 0 (moveBall 0 (800, 600) headOnLeft).position :=
  ⟨rfl, (no_positional_correction Rat.sqrt).2.2 0 false (0, 0) (800, 600)
    ([headOnLeft, headOnRight], ⟨GRID_SIZE, []⟩) 0 headOnLeft rfl⟩

/-! ## C17: containment in a viewport that holds a ball -/

/-- C17: for `W ≥ 20` and `H ≥ 20`, after `updateBalls` every body has
`10 ≤ x ≤ W - 10` and `10 ≤ y ≤ H - 10`, whatever the collection, the
positions before the step, `deltaTime`, the storm flag and the pointer. -/
theorem updateBalls_containment (sqrt : ℚ → ℚ) (balls : List (Ball ℚ)) (deltaTime : ℚ)
    (stormActive : Bool) (mousePosition : ℤ × ℤ) (W H : ℕ) (partition : SpatialPartition ℚ)
    (hW : 20 ≤ W) (hH : 20 ≤ H) (b : Ball ℚ)
    (hb : b ∈ (updateBalls sqrt balls deltaTime stormActive mousePosition (W, H) partition).1) :
    BALL_RADIUS ≤ b.position.x ∧ b.position.x ≤ (W : ℚ) - BALL_RADIUS ∧
      BALL_RADIUS ≤ b.position.y ∧ b.position.y ≤ (H : ℚ) - BALL_RADIUS := by
  obtain ⟨h1, h2, h3, h4⟩ := updateBalls_positions_inWalls sqrt balls deltaTime stormActive
    mousePosition (W, H) partition b hb
  exact ⟨h3 hW, h1, h4 hH, h2⟩

/-- C17, witness: a ball that starts outside an 800 by 600 viewport, at
(-50, 900), is inside the bounds after a step of zero length. -/
theorem updateBalls_containment_witness :
    20 ≤ 800 ∧ 20 ≤ 600 ∧
      (⟨⟨10, 590⟩, ⟨0, 0⟩⟩ : Ball ℚ) ∈
        (updateBalls Rat.sqrt [⟨⟨-50, 900⟩, ⟨0, 0⟩⟩] 0 false (0, 0) (800, 600) ⟨GRID_SIZE, []⟩).1 ∧
      (BALL_RADIUS ≤ (10 : ℚ) ∧ (10 : ℚ) ≤ ((800 : ℕ) : ℚ) - BALL_RADIUS ∧
        BALL_RADIUS ≤ (590 : ℚ) ∧ (590 : ℚ) ≤ ((600 : ℕ) : ℚ) - BALL_RADIUS) :=
  have hmem : (⟨⟨10, 590⟩, ⟨0, 0⟩⟩ : Ball ℚ) ∈
      (updateBalls Rat.sqrt [⟨⟨-50, 900⟩, ⟨0, 0⟩⟩] 0 false (0, 0) (800, 600) ⟨GRID_SIZE, []⟩).1 := by
    simp [updateBalls_single, applyStorm, moveBall, wallHandling, Vec2.add, Vec2.scale, GRAVITY,
      BALL_RADIUS]
    norm_num
  ⟨by norm_num, by norm_num, hmem,
    updateBalls_containment Rat.sqrt _ 0 false (0, 0) 800 600 ⟨GRID_SIZE, []⟩ (by norm_num)
      (by norm_num) _ hmem⟩


/-! ## C18: the bucket of a body matches its final position -/

theorem castInt_of_nonneg (q : ℚ) (h : 0 ≤ q) : castInt q = ⌊q⌋ := by
  unfold castInt
  rw [if_pos h]

/-- For a position with non-negative coordinates and a positive cell size
the key computed by `addBall` is the floor key. -/
theorem cellKey_eq_floorKey (p : SpatialPartition ℚ) (ball : Ball ℚ) (hcs : 0 < p.cellSize)
    (hx : 0 ≤ ball.position.x) (hy : 0 ≤ ball.position.y) :
    p.cellKey ball = floorKey p.cellSize ball.position := by
  unfold SpatialPartition.cellKey floorKey
  rw [castInt_of_nonneg _ (div_nonneg hx (le_of_lt hcs)),
    castInt_of_nonneg _ (div_nonneg hy (le_of_lt hcs))]

theorem stored_pushBack_self (g : Grid) (key : ℤ × ℤ) (ptr : ℕ) :
    (g.pushBack key ptr).Stored key ptr := by
  induction g with
  | nil =>
    refine ⟨[ptr], ?_, List.mem_singleton.2 rfl⟩
    simp [Grid.pushBack, Grid.find]
  | cons e rest ih =>
    obtain ⟨k, bucket⟩ := e
    unfold Grid.pushBack
    split_ifs with hk
    · refine ⟨bucket ++ [ptr], ?_, by simp⟩
      simp [Grid.find, hk]
    · obtain ⟨b', hfind, hmem⟩ := ih
      refine ⟨b', ?_, hmem⟩
      simp only [Grid.find, if_neg hk]
      exact hfind

theorem stored_pushBack_of_stored (g : Grid) (key key' : ℤ × ℤ) (ptr ptr' : ℕ)
    (h : g.Stored key ptr) : (g.pushBack key' ptr').Stored key ptr := by
  induction g with
  | nil =>
    obtain ⟨b, hfind, _⟩ := h
    simp [Grid.find] at hfind
  | cons e rest ih =>
    obtain ⟨k, bucket⟩ := e
    obtain ⟨b, hfind, hmem⟩ := h
    unfold Grid.pushBack
    by_cases hk' : k = key'
    · rw [if_pos hk']
      by_cases hk : k = key
      · simp only [Grid.find, if_pos hk] at hfind
        have hb : bucket = b := by simpa using hfind
        refine ⟨bucket ++ [ptr'], ?_, ?_⟩
        · simp only [Grid.find, if_pos hk]
        · rw [hb]
          exact List.mem_append_left _ hmem
      · simp only [Grid.find, if_neg hk] at hfind
        refine ⟨b, ?_, hmem⟩
        simp only [Grid.find, if_neg hk]
        exact hfind
    · rw [if_neg hk']
      by_cases hk : k = key
      · simp only [Grid.find, if_pos hk] at hfind
        refine ⟨b, ?_, hmem⟩
        simp only [Grid.find, if_pos hk]
        exact hfind
      · simp only [Grid.find, if_neg hk] at hfind
        obtain ⟨b', hfind', hmem'⟩ := ih ⟨b, hfind, hmem⟩
        refine ⟨b', ?_, hmem'⟩
        simp only [Grid.find, if_neg hk]
        exact hfind'

theorem updateBall_cellSize (sqrt : ℚ → ℚ) (dt : ℚ) (storm : Bool) (m : ℤ × ℤ) (W : ℕ × ℕ)
    (st : List (Ball ℚ) × SpatialPartition ℚ) (i : ℕ) :
    (updateBall sqrt dt storm m W st i).2.cellSize = st.2.cellSize := by
  cases hi : st.1[i]? with
  | none =>
    unfold updateBall
    simp only [hi]
  | some ball =>
    obtain ⟨b3, _, _, h3, _⟩ := updateBall_spec sqrt dt storm m W st i ball hi
    rw [h3]
    rfl

theorem updateBall_bucketMatches (sqrt : ℚ → ℚ) (dt : ℚ) (storm : Bool) (m : ℤ × ℤ)
    (W : ℕ × ℕ) (hW : 20 ≤ W.1) (hH : 20 ≤ W.2) (st : List (Ball ℚ) × SpatialPartition ℚ)
    (hcs : st.2.cellSize = GRID_SIZE) (i j : ℕ) (h : i = j ∨ BucketMatches W st j) :
    BucketMatches W (updateBall sqrt dt storm m W st i) j := by
  cases hi : st.1[i]? with
  | none =>
    have hsame : updateBall sqrt dt storm m W st i = st := by
      unfold updateBall
      simp only [hi]
    rw [hsame]
    rcases h with h | h
    · subst h
      intro b hb
      rw [hi] at hb
      exact Option.noConfusion hb
    · exact h
  | some ball =>
    obtain ⟨b3, h1, h2, h3, h4⟩ := updateBall_spec sqrt dt storm m W st i ball hi
    intro b hb
    by_cases hij : i = j
    · subst hij
      rw [h1] at hb
      have hb3 : b3 = b := by simpa using hb
      subst hb3
      have hin : InWalls W b3.position := by
        rw [h2]
        exact moveBall_inWalls dt W ball
      refine ⟨hin, ?_⟩
      rw [h3]
      have hx : (0 : ℚ) ≤ b3.position.x := by
        have := hin.2.2.1 hW
        unfold BALL_RADIUS at this
        linarith
      have hy : (0 : ℚ) ≤ b3.position.y := by
        have := hin.2.2.2 hH
        unfold BALL_RADIUS at this
        linarith
      have hpos : (0 : ℚ) < st.2.cellSize := by
        rw [hcs]
        norm_num [GRID_SIZE]
      have hkey := cellKey_eq_floorKey st.2 b3 hpos hx hy
      rw [hcs] at hkey
      show (st.2.grid.pushBack (st.2.cellKey b3) i).Stored (floorKey GRID_SIZE b3.position) i
      rw [hkey]
      exact stored_pushBack_self _ _ _
    · rcases h with h | h
      · exact absurd h hij
      · have hpj := congrArg (fun l => l[j]?) h4
        simp only [List.getElem?_map, hb, List.getElem?_set_ne hij, Option.map_some'] at hpj
        cases hj : st.1[j]? with
        | none =>
          rw [hj] at hpj
          exact Option.noConfusion hpj
        | some b0 =>
          rw [hj] at hpj
          have hp0 : b0.position = b.position := by
            simpa using hpj.symm
          obtain ⟨hin0, hst0⟩ := h b0 hj
          rw [hp0] at hin0 hst0
          refine ⟨hin0, ?_⟩
          rw [h3]
          exact stored_pushBack_of_stored _ _ _ _ _ hst0

theorem foldl_updateBall_bucketMatches (sqrt : ℚ → ℚ) (dt : ℚ) (storm : Bool) (m : ℤ × ℤ)
    (W : ℕ × ℕ) (hW : 20 ≤ W.1) (hH : 20 ≤ W.2) (is : List ℕ)
    (st : List (Ball ℚ) × SpatialPartition ℚ) (hcs : st.2.cellSize = GRID_SIZE) (j : ℕ)
    (h : j ∈ is ∨ BucketMatches W st j) :
    BucketMatches W (is.foldl (updateBall sqrt dt storm m W) st) j := by
  induction is generalizing st with
  | nil =>
    rcases h with h | h
    · exact absurd h (List.not_mem_nil j)
    · exact h
  | cons i is ih =>
    rw [List.foldl_cons]
    apply ih
    · rw [updateBall_cellSize]
      exact hcs
    · rcases h with h | h
      · rcases List.mem_cons.1 h with h | h
        · exact Or.inr (updateBall_bucketMatches sqrt dt storm m W hW hH st hcs i j
            (Or.inl h.symm))
        · exact Or.inl h
      · exact Or.inr (updateBall_bucketMatches sqrt dt storm m W hW hH st hcs i j (Or.inr h))

/-- C18: for `W ≥ 20` and `H ≥ 20`, with the partition of cell size 50,
after `updateBalls` every body is stored in the bucket keyed
`(floor(x/50), floor(y/50))` of the position it has at the end of the step,
and that key is the one `addBall` computes from that position. -/
theorem updateBalls_bucket_matches_position (sqrt : ℚ → ℚ) (balls : List (Ball ℚ)) (deltaTime : ℚ)
    (stormActive : Bool) (mousePosition : ℤ × ℤ) (W H : ℕ) (partition : SpatialPartition ℚ)
    (hW : 20 ≤ W) (hH : 20 ≤ H) (hcs : partition.cellSize = GRID_SIZE) (i : ℕ) (b : Ball ℚ)
    (hb : (updateBalls sqrt balls deltaTime stormActive mousePosition (W, H) partition).1[i]?
      = some b) :
    (∃ bucket,
      (updateBalls sqrt balls deltaTime stormActive mousePosition (W, H) partition).2.grid.find
          (⌊b.position.x / GRID_SIZE⌋, ⌊b.position.y / GRID_SIZE⌋) = some bucket ∧
        i ∈ bucket) ∧
      (updateBalls sqrt balls deltaTime stormActive mousePosition (W, H) partition).2.cellKey b
        = (⌊b.position.x / GRID_SIZE⌋, ⌊b.position.y / GRID_SIZE⌋) := by
  have hlen : i < balls.length := by
    have h1 := (List.getElem?_eq_some_iff.1 hb).1
    have h2 := foldl_updateBall_length sqrt deltaTime stormActive mousePosition (W, H)
      (List.range balls.length) (balls, partition.clear)
    unfold updateBalls at h1
    rw [h2] at h1
    exact h1
  have hmatch := foldl_updateBall_bucketMatches sqrt deltaTime stormActive mousePosition (W, H)
    hW hH (List.range balls.length) (balls, partition.clear) hcs i
    (Or.inl (List.mem_range.2 hlen))
  obtain ⟨hin, hstored⟩ := hmatch b hb
  refine ⟨hstored, ?_⟩
  have hx : (0 : ℚ) ≤ b.position.x := by
    have := hin.2.2.1 hW
    unfold BALL_RADIUS at this
    linarith
  have hy : (0 : ℚ) ≤ b.position.y := by
    have := hin.2.2.2 hH
    unfold BALL_RADIUS at this
    linarith
  have hcs2 : (updateBalls sqrt balls deltaTime stormActive mousePosition (W, H)
      partition).2.cellSize = GRID_SIZE := by
    unfold updateBalls
    generalize List.range balls.length = is
    have : ∀ st : List (Ball ℚ) × SpatialPartition ℚ, st.2.cellSize = GRID_SIZE →
        (is.foldl (updateBall sqrt deltaTime stormActive mousePosition (W, H)) st).2.cellSize
          = GRID_SIZE := by
      induction is with
      | nil => exact fun st h => h
      | cons k is ih =>
        intro st h
        rw [List.foldl_cons]
        apply ih
        rw [updateBall_cellSize]
        exact h
    exact this _ hcs
  have hkey := cellKey_eq_floorKey _ b (by rw [hcs2]; norm_num [GRID_SIZE]) hx hy
  rw [hcs2] at hkey
  exact hkey

/-- C18, witness: a single ball at (100, 100) in an 800 by 600 viewport,
step of zero length: it is stored in the bucket keyed (floor(100/50),
floor(100/50)). -/
theorem updateBalls_bucket_matches_position_witness :
    20 ≤ 800 ∧ 20 ≤ 600 ∧ (⟨GRID_SIZE, []⟩ : SpatialPartition ℚ).cellSize = GRID_SIZE ∧
      (updateBalls Rat.sqrt [⟨⟨100, 100⟩, ⟨0, 0⟩⟩] 0 false (0, 0) (800, 600)
          ⟨GRID_SIZE, []⟩).1[0]? = some ⟨⟨100, 100⟩, ⟨0, 0⟩⟩ ∧
      ∃ bucket,
        (updateBalls Rat.sqrt [⟨⟨100, 100⟩, ⟨0, 0⟩⟩] 0 false (0, 0) (800, 600)
            ⟨GRID_SIZE, []⟩).2.grid.find (⌊(100 : ℚ) / GRID_SIZE⌋, ⌊(100 : ℚ) / GRID_SIZE⌋)
          = some bucket ∧ 0 ∈ bucket :=
  have hb : (updateBalls Rat.sqrt [⟨⟨100, 100⟩, ⟨0, 0⟩⟩] 0 false (0, 0) (800, 600)
      ⟨GRID_SIZE, []⟩).1[0]? = some ⟨⟨100, 100⟩, ⟨0, 0⟩⟩ := by
    simp [updateBalls_single, applyStorm, moveBall, wallHandling, Vec2.add, Vec2.scale, GRAVITY,
      BALL_RADIUS]
    norm_num
  ⟨by norm_num, by norm_num, rfl, hb,
    (updateBalls_bucket_matches_position Rat.sqrt [⟨⟨100, 100⟩, ⟨0, 0⟩⟩] 0 false (0, 0) 800 600
      ⟨GRID_SIZE, []⟩ (by norm_num) (by norm_num) rfl 0 ⟨⟨100, 100⟩, ⟨0, 0⟩⟩ hb).1⟩

/-! ## C12: gravity-only monotonicity -/

theorem collisionLoopState_succ (sqrt : ℚ → ℚ) (k : ℕ) (balls : List (Ball ℚ)) (j : ℕ) :
    collisionLoopState sqrt k balls (j + 1)
      = collideWith sqrt k (collisionLoopState sqrt k balls j) j := by
  unfold collisionLoopState
  rw [List.range_succ, List.foldl_append, List.foldl_cons, List.foldl_nil]

/-- If no test of the inner loop changes the body at index `i`, the loop
leaves it as it is. -/
theorem collisionLoopState_getElem? (sqrt : ℚ → ℚ) (k : ℕ) (balls : List (Ball ℚ)) (i n : ℕ)
    (h : ∀ j, j < n → (collideWith sqrt k (collisionLoopState sqrt k balls j) j)[i]?
      = (collisionLoopState sqrt k balls j)[i]?) (j : ℕ) (hj : j ≤ n) :
    (collisionLoopState sqrt k balls j)[i]? = balls[i]? := by
  induction j with
  | zero => rfl
  | succ j ih =>
    rw [collisionLoopState_succ, h j hj, ih (Nat.le_of_succ_le hj)]

theorem onBody_length (phase : Ball ℚ → Ball ℚ) (i : ℕ) (balls : List (Ball ℚ)) :
    (onBody phase i balls).length = balls.length := by
  unfold onBody
  cases balls[i]? with
  | none => rfl
  | some ball => simp

theorem onBody_getElem? (phase : Ball ℚ → Ball ℚ) (k i : ℕ) (balls : List (Ball ℚ)) :
    (onBody phase k balls)[i]? = if k = i then (balls[i]?).map phase else balls[i]? := by
  unfold onBody
  by_cases hki : k = i
  · subst hki
    cases hk : balls[k]? with
    | none => simp [hk]
    | some ball =>
      have hlt : k < balls.length := (List.getElem?_eq_some_iff.1 hk).1
      simp [List.getElem?_set, hlt]
  · cases hk : balls[k]? with
    | none => simp [hki]
    | some ball => simp [hki, List.getElem?_set_ne hki]

/-- With the storm inactive, one iteration of the outer loop leaves the
collection that its collision loop leaves. -/
theorem updateBall_stormOff (sqrt : ℚ → ℚ) (dt : ℚ) (m : ℤ × ℤ) (W : ℕ × ℕ)
    (st : List (Ball ℚ) × SpatialPartition ℚ) (k : ℕ) :
    (updateBall sqrt dt false m W st k).1 = collideAll sqrt k (onBody (moveBall dt W) k st.1) := by
  rw [updateBall_eq_phases]
  have hid : ∀ b, applyStorm sqrt dt false m b = b := fun b => rfl
  rw [onBody_id _ hid]
  unfold insertBody
  cases (collideAll sqrt k (onBody (moveBall dt W) k st.1))[k]? with
  | none => rfl
  | some b => rfl

theorem turnStart_succ (sqrt : ℚ → ℚ) (dt : ℚ) (m : ℤ × ℤ) (W : ℕ × ℕ) (balls : List (Ball ℚ))
    (p : SpatialPartition ℚ) (k : ℕ) :
    turnStart sqrt dt m W balls p (k + 1)
      = collideAll sqrt k (onBody (moveBall dt W) k (turnStart sqrt dt m W balls p k)) := by
  unfold turnStart
  rw [List.range_succ, List.foldl_append, List.foldl_cons, List.foldl_nil, updateBall_stormOff]

theorem turnStart_length (sqrt : ℚ → ℚ) (dt : ℚ) (m : ℤ × ℤ) (W : ℕ × ℕ) (balls : List (Ball ℚ))
    (p : SpatialPartition ℚ) (k : ℕ) :
    (turnStart sqrt dt m W balls p k).length = balls.length := by
  unfold turnStart
  rw [foldl_updateBall_length]

/-- A body that receives no collision impulse is, at the start of the turn
of the body `k`, the moved body when its own turn has passed and the body it
was before the step otherwise. -/
theorem turnStart_getElem? (sqrt : ℚ → ℚ) (dt : ℚ) (m : ℤ × ℤ) (W : ℕ × ℕ)
    (balls : List (Ball ℚ)) (p : SpatialPartition ℚ) (i : ℕ) (b : Ball ℚ)
    (hquiet : NoImpulseOn sqrt dt m W balls p i) (hb : balls[i]? = some b) (k : ℕ)
    (hk : k ≤ balls.length) :
    (turnStart sqrt dt m W balls p k)[i]? = some (if i < k then moveBall dt W b else b) := by
  induction k with
  | zero =>
    simp only [Nat.not_lt_zero, if_false]
    exact hb
  | succ k ih =>
    have hlt : k < balls.length := hk
    have ihk := ih (le_of_lt hlt)
    rw [turnStart_succ]
    have hlen : (onBody (moveBall dt W) k (turnStart sqrt dt m W balls p k)).length
        = balls.length := by
      rw [onBody_length, turnStart_length]
    have hloop := collisionLoopState_getElem? sqrt k
      (onBody (moveBall dt W) k (turnStart sqrt dt m W balls p k)) i balls.length
      (fun j hj => hquiet k j hlt hj) balls.length (le_refl _)
    have hall : collideAll sqrt k (onBody (moveBall dt W) k (turnStart sqrt dt m W balls p k))
        = collisionLoopState sqrt k
            (onBody (moveBall dt W) k (turnStart sqrt dt m W balls p k)) balls.length := by
      unfold collideAll collisionLoopState
      rw [hlen]
    rw [hall, hloop, onBody_getElem?, ihk]
    by_cases hki : k = i
    · subst hki
      simp
    · have h1 : (i < k + 1) = (i < k) := by
        apply propext
        constructor
        · intro h
          omega
        · intro h
          omega
      simp only [if_neg hki, h1]

/-- With the storm inactive, a body that receives no collision impulse ends
the step as its own movement and wall handling leave it. -/
theorem updateBalls_noImpulse (sqrt : ℚ → ℚ) (balls : List (Ball ℚ)) (dt : ℚ) (m : ℤ × ℤ)
    (W : ℕ × ℕ) (p : SpatialPartition ℚ) (i : ℕ) (b : Ball ℚ)
    (hquiet : NoImpulseOn sqrt dt m W balls p i) (hb : balls[i]? = some b) :
    (updateBalls sqrt balls dt false m W p).1[i]? = some (moveBall dt W b) := by
  have hlt : i < balls.length := (List.getElem?_eq_some_iff.1 hb).1
  have h := turnStart_getElem? sqrt dt m W balls p i b hquiet hb balls.length (le_refl _)
  rw [if_pos hlt] at h
  exact h

theorem moveBall_airborne_velocity (dt : ℚ) (W : ℕ × ℕ) (b : Ball ℚ) (hair : Airborne dt W b) :
    (moveBall dt W b).velocity.y = b.velocity.y + GRAVITY * dt := by
  obtain ⟨h1, h2, _, _⟩ := hair
  simp only [tentativePosition, Vec2.add, Vec2.scale] at h1 h2
  simp only [moveBall, wallHandling, Vec2.add, Vec2.scale, decide_eq_true_eq]
  rw [if_neg h1, if_neg h1, if_neg h2]

/-- For a collection of two balls with the storm inactive, the first ball
receives no collision impulse when the test of its own turn and the test of
the turn of the second ball both leave it as it is. -/
theorem noImpulseOn_pair_first [FloorRing F] (sqrt : F → F) (a b : Ball F) (dt : F) (m : ℤ × ℤ)
    (W : ℕ × ℕ) (p : SpatialPartition F)
    (h0 : (handleBallCollision sqrt (moveBall dt W a) b).1 = moveBall dt W a)
    (h1 : (handleBallCollision sqrt
        (moveBall dt W (handleBallCollision sqrt (moveBall dt W a) b).2)
        (handleBallCollision sqrt (moveBall dt W a) b).1).2
          = (handleBallCollision sqrt (moveBall dt W a) b).1) :
    NoImpulseOn sqrt dt m W [a, b] p 0 := by
  intro k j hk hj
  have hk2 : k < 2 := hk
  have hj2 : j < 2 := hj
  interval_cases k <;> interval_cases j
  · rfl
  · exact congrArg some h0
  · exact congrArg some h1
  · rfl


/-- C12, counterexample: two airborne balls, one above the other, storm
inactive, a step of a tenth of a second in a 1000 by 1000 viewport.  The
upper ball, at (100, 84) with vertical velocity 104, is moved to (100, 100)
with vertical velocity 160 and meets the lower ball, at rest at (100, 110):
the impulse leaves it with vertical velocity 16, less than the 104 it had
before the step. -/
theorem gravity_monotonicity_fails_on_collision :
    Airborne (1 / 10 : ℚ) (1000, 1000) ⟨⟨100, 84⟩, ⟨0, 104⟩⟩ ∧
      (updateBalls Rat.sqrt [⟨⟨100, 84⟩, ⟨0, 104⟩⟩, ⟨⟨100, 110⟩, ⟨0, 0⟩⟩] (1 / 10) false (0, 0)
          (1000, 1000) ⟨GRID_SIZE, []⟩).1
        = [⟨⟨100, 100⟩, ⟨0, 16⟩⟩, ⟨⟨100, 130⟩, ⟨0, 200⟩⟩] ∧
      (⟨⟨100, 100⟩, ⟨0, 16⟩⟩ : Ball ℚ).velocity.y < (⟨⟨100, 84⟩, ⟨0, 104⟩⟩ : Ball ℚ).velocity.y := by
  have h100 : Rat.sqrt 100 = 10 := sqrt_of_sq 100 10 (by norm_num) (by norm_num)
  have h900 : Rat.sqrt 900 = 30 := sqrt_of_sq 900 30 (by norm_num) (by norm_num)
  have hm0 : moveBall (1 / 10 : ℚ) (1000, 1000) ⟨⟨100, 84⟩, ⟨0, 104⟩⟩
      = ⟨⟨100, 100⟩, ⟨0, 160⟩⟩ := by
    simp [moveBall, wallHandling, Vec2.add, Vec2.scale, GRAVITY, BALL_RADIUS]
    norm_num
  have hd0 : collisionDistance Rat.sqrt ⟨⟨100, 100⟩, ⟨0, 160⟩⟩ ⟨⟨100, 110⟩, ⟨0, 0⟩⟩ = 10 := by
    simp only [collisionDistance, collisionDelta, Vec2.sub]
    rw [show ((100 : ℚ) - 100) * (100 - 100) + (100 - 110) * (100 - 110) = 100 by norm_num]
    exact h100
  have hrv0 : relativeVelocity Rat.sqrt ⟨⟨100, 100⟩, ⟨0, 160⟩⟩ ⟨⟨100, 110⟩, ⟨0, 0⟩⟩
      = -160 := by
    simp only [relativeVelocity, collisionNormal, hd0, collisionDelta, Vec2.sub, Vec2.divide]
    norm_num
  have hc0 : handleBallCollision Rat.sqrt ⟨⟨100, 100⟩, ⟨0, 160⟩⟩ ⟨⟨100, 110⟩, ⟨0, 0⟩⟩
      = (⟨⟨100, 100⟩, ⟨0, 16⟩⟩, ⟨⟨100, 110⟩, ⟨0, 144⟩⟩) := by
    rw [handleBallCollision_of_impulse _ _ _ (by rw [hd0]; norm_num [BALL_RADIUS])
      (by rw [hrv0]; norm_num), hrv0]
    simp only [collisionNormal, hd0, collisionDelta, Vec2.sub, Vec2.add, Vec2.scale, Vec2.divide,
      BALL_DENSITY]
    norm_num
  have hm1 : moveBall (1 / 10 : ℚ) (1000, 1000) ⟨⟨100, 110⟩, ⟨0, 144⟩⟩
      = ⟨⟨100, 130⟩, ⟨0, 200⟩⟩ := by
    simp [moveBall, wallHandling, Vec2.add, Vec2.scale, GRAVITY, BALL_RADIUS]
    norm_num
  have hd1 : collisionDistance Rat.sqrt ⟨⟨100, 130⟩, ⟨0, 200⟩⟩ ⟨⟨100, 100⟩, ⟨0, 16⟩⟩ = 30 := by
    simp only [collisionDistance, collisionDelta, Vec2.sub]
    rw [show ((100 : ℚ) - 100) * (100 - 100) + (130 - 100) * (130 - 100) = 900 by norm_num]
    exact h900
  have hc1 : handleBallCollision Rat.sqrt ⟨⟨100, 130⟩, ⟨0, 200⟩⟩ ⟨⟨100, 100⟩, ⟨0, 16⟩⟩
      = (⟨⟨100, 130⟩, ⟨0, 200⟩⟩, ⟨⟨100, 100⟩, ⟨0, 16⟩⟩) :=
    handleBallCollision_of_far _ _ _ (by rw [hd1]; norm_num [BALL_RADIUS])
  refine ⟨?_, ?_, ?_⟩
  · simp only [Airborne, tentativePosition, Vec2.add, Vec2.scale, GRAVITY, BALL_RADIUS]
    norm_num
  · rw [updateBalls_pair, hm0, hc0]
    simp only [applyStorm_off, hm1, hc1]
  · norm_num

theorem updateBalls_airborne_step (sqrt : ℚ → ℚ) (balls : List (Ball ℚ)) (dt : ℚ) (m : ℤ × ℤ)
    (W : ℕ × ℕ) (p : SpatialPartition ℚ) (i : ℕ) (b b' : Ball ℚ) (hdt : 0 ≤ dt)
    (hquiet : NoImpulseOn sqrt dt m W balls p i) (hb : balls[i]? = some b)
    (hair : Airborne dt W b)
    (hb' : (updateBalls sqrt balls dt false m W p).1[i]? = some b') :
    b' = moveBall dt W b ∧ b'.velocity.y = b.velocity.y + GRAVITY * dt ∧
      b.velocity.y ≤ b'.velocity.y := by
  rw [updateBalls_noImpulse sqrt balls dt m W p i b hquiet hb] at hb'
  have hb2 : b' = moveBall dt W b := by
    simpa using hb'.symm
  have hv := moveBall_airborne_velocity dt W b hair
  refine ⟨hb2, by rw [hb2, hv], ?_⟩
  rw [hb2, hv]
  have hg : 0 ≤ GRAVITY * dt := by
    unfold GRAVITY
    linarith
  linarith

/-- C12, amended: with the storm inactive and `deltaTime ≥ 0`, a body that
is airborne in the step and receives no collision impulse in it ends the
step with its vertical velocity increased by `560 * deltaTime`, so not
decreased, whatever the other bodies do; over any run of such steps its
vertical velocity is non-decreasing. -/
theorem updateBalls_gravity_only_monotone (sqrt : ℚ → ℚ) (mousePosition : ℤ × ℤ) (i : ℕ) :
    (∀ (balls : List (Ball ℚ)) (deltaTime : ℚ) (windowSize : ℕ × ℕ)
      (partition : SpatialPartition ℚ) (b b' : Ball ℚ), 0 ≤ deltaTime →
      NoImpulseOn sqrt deltaTime mousePosition windowSize balls partition i →
      balls[i]? = some b → Airborne deltaTime windowSize b →
      (updateBalls sqrt balls deltaTime false mousePosition windowSize partition).1[i]? = some b' →
      b'.velocity.y = b.velocity.y + GRAVITY * deltaTime ∧ b.velocity.y ≤ b'.velocity.y) ∧
    (∀ (frames : List (ℚ × (ℕ × ℕ))) (st : List (Ball ℚ) × SpatialPartition ℚ) (b b' : Ball ℚ),
      GravityOnlyRun sqrt mousePosition i frames st → st.1[i]? = some b →
      (runFrames sqrt mousePosition frames st).1[i]? = some b' →
      b.velocity.y ≤ b'.velocity.y) := by
  constructor
  · intro balls dt W p b b' hdt hquiet hb hair hb'
    exact (updateBalls_airborne_step sqrt balls dt mousePosition W p i b b' hdt hquiet hb hair
      hb').2
  · intro frames
    induction frames with
    | nil =>
      intro st b b' _ hb hb'
      simp only [runFrames] at hb'
      rw [hb] at hb'
      have : b = b' := by simpa using hb'
      rw [this]
    | cons frame frames ih =>
      intro st b b' hrun hb hb'
      obtain ⟨hdt, hquiet, hair, hrest⟩ := hrun
      simp only [runFrames] at hb'
      have hmid := updateBalls_noImpulse sqrt st.1 frame.1 mousePosition frame.2 st.2 i b hquiet hb
      have hstep := updateBalls_airborne_step sqrt st.1 frame.1 mousePosition frame.2 st.2 i b
        (moveBall frame.1 frame.2 b) hdt hquiet hb (hair b hb) hmid
      exact le_trans hstep.2.2 (ih _ _ b' hrest hmid hb')

/-- C12, witness: two airborne balls, one above the other and overlapping,
moving apart, in a 1000 by 1000 viewport, a step of a tenth of a second.
The upper ball, at (100, 100) with vertical velocity -156, is moved to
(100, 90) and tested against the lower one, at (100, 105), at distance 15:
they are not approaching, no impulse is exchanged, and the upper ball ends
the step with vertical velocity -100. -/
theorem updateBalls_gravity_only_monotone_witness :
    collisionDistance Rat.sqrt ⟨⟨100, 90⟩, ⟨0, -100⟩⟩ ⟨⟨100, 105⟩, ⟨0, 44⟩⟩ = 15 ∧
      (0 : ℚ) ≤ 1 / 10 ∧
      NoImpulseOn Rat.sqrt (1 / 10) (0, 0) (1000, 1000)
        [⟨⟨100, 100⟩, ⟨0, -156⟩⟩, ⟨⟨100, 105⟩, ⟨0, 44⟩⟩] ⟨GRID_SIZE, []⟩ 0 ∧
      Airborne (1 / 10 : ℚ) (1000, 1000) ⟨⟨100, 100⟩, ⟨0, -156⟩⟩ ∧
      (updateBalls Rat.sqrt [⟨⟨100, 100⟩, ⟨0, -156⟩⟩, ⟨⟨100, 105⟩, ⟨0, 44⟩⟩] (1 / 10) false (0, 0)
          (1000, 1000) ⟨GRID_SIZE, []⟩).1[0]? = some ⟨⟨100, 90⟩, ⟨0, -100⟩⟩ ∧
      ((-100 : ℚ) = -156 + GRAVITY * (1 / 10) ∧ (-156 : ℚ) ≤ -100) :=
  have h225 : Rat.sqrt 225 = 15 := sqrt_of_sq 225 15 (by norm_num) (by norm_num)
  have h625 : Rat.sqrt 625 = 25 := sqrt_of_sq 625 25 (by norm_num) (by norm_num)
  have hm0 : moveBall (1 / 10 : ℚ) (1000, 1000) ⟨⟨100, 100⟩, ⟨0, -156⟩⟩
      = ⟨⟨100, 90⟩, ⟨0, -100⟩⟩ := by
    simp [moveBall, wallHandling, Vec2.add, Vec2.scale, GRAVITY, BALL_RADIUS]
    norm_num
  have hdist : collisionDistance Rat.sqrt ⟨⟨100, 90⟩, ⟨0, -100⟩⟩ ⟨⟨100, 105⟩, ⟨0, 44⟩⟩ = 15 := by
    simp only [collisionDistance, collisionDelta, Vec2.sub]
    rw [show ((100 : ℚ) - 100) * (100 - 100) + (90 - 105) * (90 - 105) = 225 by norm_num]
    exact h225
  have hrv0 : relativeVelocity Rat.sqrt ⟨⟨100, 90⟩, ⟨0, -100⟩⟩ ⟨⟨100, 105⟩, ⟨0, 44⟩⟩
      = 144 := by
    simp only [relativeVelocity, collisionNormal, hdist, collisionDelta, Vec2.sub, Vec2.divide]
    norm_num
  have hc0 : handleBallCollision Rat.sqrt ⟨⟨100, 90⟩, ⟨0, -100⟩⟩ ⟨⟨100, 105⟩, ⟨0, 44⟩⟩
      = (⟨⟨100, 90⟩, ⟨0, -100⟩⟩, ⟨⟨100, 105⟩, ⟨0, 44⟩⟩) :=
    handleBallCollision_of_separating _ _ _ (by rw [hrv0]; norm_num)
  have hm1 : moveBall (1 / 10 : ℚ) (1000, 1000) ⟨⟨100, 105⟩, ⟨0, 44⟩⟩
      = ⟨⟨100, 115⟩, ⟨0, 100⟩⟩ := by
    simp [moveBall, wallHandling, Vec2.add, Vec2.scale, GRAVITY, BALL_RADIUS]
    norm_num
  have hd1 : collisionDistance Rat.sqrt ⟨⟨100, 115⟩, ⟨0, 100⟩⟩ ⟨⟨100, 90⟩, ⟨0, -100⟩⟩ = 25 := by
    simp only [collisionDistance, collisionDelta, Vec2.sub]
    rw [show ((100 : ℚ) - 100) * (100 - 100) + (115 - 90) * (115 - 90) = 625 by norm_num]
    exact h625
  have hc1 : handleBallCollision Rat.sqrt ⟨⟨100, 115⟩, ⟨0, 100⟩⟩ ⟨⟨100, 90⟩, ⟨0, -100⟩⟩
      = (⟨⟨100, 115⟩, ⟨0, 100⟩⟩, ⟨⟨100, 90⟩, ⟨0, -100⟩⟩) :=
    handleBallCollision_of_far _ _ _ (by rw [hd1]; norm_num [BALL_RADIUS])
  have hdt : (0 : ℚ) ≤ 1 / 10 := by norm_num
  have hquiet : NoImpulseOn Rat.sqrt (1 / 10) (0, 0) (1000, 1000)
      [⟨⟨100, 100⟩, ⟨0, -156⟩⟩, ⟨⟨100, 105⟩, ⟨0, 44⟩⟩] ⟨GRID_SIZE, []⟩ 0 :=
    noImpulseOn_pair_first _ _ _ _ _ _ _ (by rw [hm0, hc0])
      (by rw [hm0, hc0]; simp only [hm1, hc1])
  have hair : Airborne (1 / 10 : ℚ) (1000, 1000) ⟨⟨100, 100⟩, ⟨0, -156⟩⟩ := by
    simp only [Airborne, tentativePosition, Vec2.add, Vec2.scale, GRAVITY, BALL_RADIUS]
    norm_num
  have hb' : (updateBalls Rat.sqrt [⟨⟨100, 100⟩, ⟨0, -156⟩⟩, ⟨⟨100, 105⟩, ⟨0, 44⟩⟩] (1 / 10)
      false (0, 0) (1000, 1000) ⟨GRID_SIZE, []⟩).1[0]? = some ⟨⟨100, 90⟩, ⟨0, -100⟩⟩ := by
    rw [updateBalls_pair, hm0, hc0]
    simp only [applyStorm_off, hm1, hc1]
    rfl
  ⟨hdist, hdt, hquiet, hair, hb',
    (updateBalls_gravity_only_monotone Rat.sqrt (0, 0) 0).1
      [⟨⟨100, 100⟩, ⟨0, -156⟩⟩, ⟨⟨100, 105⟩, ⟨0, 44⟩⟩] (1 / 10) (1000, 1000) ⟨GRID_SIZE, []⟩
      ⟨⟨100, 100⟩, ⟨0, -156⟩⟩ ⟨⟨100, 90⟩, ⟨0, -100⟩⟩ hdt hquiet rfl hair hb'⟩

end PhysicsSim
